import Mathlib

/-!
Verification of the natural-language specification of `pefile.py` (version
1.2.5, a Portable Executable parser) against its source.  The Python source
is shallowly embedded: byte strings become `List Nat` (each element a byte
value), Python's arbitrary-precision integers become `Nat` (or `Int` where a
subtraction can go negative or a Python index can be negative), exceptions
become an `Except` layer, the append-only warning log becomes a writer
component, and the attribute assignments performed by the version-information
parser become explicit update records.  `while True:` loops of the source,
whose termination is part of what is being verified, take an explicit fuel
argument; running out of fuel is reported as the distinguished error
`PError.fuelOut`, so "the loop/recursion does not terminate" is expressed as
"for every fuel the run ends in `fuelOut`".

Python runtime errors that are *not* `PEFormatError` (AttributeError on a
`None` dereference, TypeError from `len(None)`, struct.error from a short
buffer, UnboundLocalError, ZeroDivisionError) are modelled as
`PError.crash`: the distinction between the typed format error and any other
exception is exactly what several claims are about.
-/

/-- Little-endian value of a byte list (least significant byte first),
as computed by `struct.unpack` with format codes B/H/L/Q. -/
def leVal : List Nat → Nat
  | [] => 0
  | b :: bs => b + 256 * leVal bs

/-- Read a `width`-byte little-endian scalar at byte offset `off` of `data`. -/
def readLE (data : List Nat) (off width : Nat) : Nat :=
  leVal ((data.drop off).take width)

/-- Little-endian encoding of `v` on exactly `width` bytes
(as produced by `struct.pack`; assumes `v < 256 ^ width`). -/
def encodeLE : Nat → Nat → List Nat
  | 0, _ => []
  | w + 1, v => v % 256 :: encodeLE w (v / 256)

/-- Python indexing `data[i]` for an `int` index: negative indices count from
the end; an index out of range yields `none` (Python raises IndexError). -/
def pyIndex (data : List Nat) (i : Int) : Option Nat :=
  if i < 0 then
    if 0 ≤ i + data.length then data.get? (i + data.length).toNat else none
  else
    if i < data.length then data.get? i.toNat else none

/-- Normalise one bound of a Python slice `data[a:b]` to a `Nat` position. -/
def pyBound (n : Nat) (i : Int) : Nat :=
  if i < 0 then (i + n).toNat else min i.toNat n

/-- Python slicing `data[a:b]` for `int` bounds (negative bounds count from
the end, everything is clamped, an inverted range is empty). -/
def pySlice (data : List Nat) (a : Int) (b : Option Int) : List Nat :=
  let hi := match b with
    | none => data.length
    | some v => pyBound data.length v
  (data.take hi).drop (pyBound data.length a)

/-- UTF-16 code units of an ASCII Lean string literal, used for the unicode
string constants the source compares against. -/
def strU (s : String) : List Nat :=
  s.toList.map Char.toNat

/-- The errors a run of the embedded parser can end in.  `peFormat` is the
source's typed `PEFormatError`; `crash` is any other Python runtime error
(the message names the Python exception); `fuelOut` is the fuel-model stand-in
for a non-terminating loop or unbounded recursion. -/
inductive PError where
  | peFormat (msg : String)
  | crash (msg : String)
  | fuelOut
  deriving Repr, DecidableEq

/-- The non-fatal warnings appended to `self.__warnings`.  Each constructor
stands for one distinct message site in the source; the numeric argument is
the value interpolated into the Python format string. -/
inductive PWarn where
  | suspiciousNumberOfRvaAndSizes (value : Nat)
  | suspiciousPointerToRawData
  | boundImportsUnparsable
  | invalidRelocationData (rva : Nat)
  | invalidDebugData (rva : Nat)
  | invalidResourcesData (rva : Nat)
  | invalidResourcesStruct (rva : Nat)
  | resourceDataEntryInvalid (rva : Nat)
  | resourceEntryNameUnreadable (off : Nat)
  | versionInfoStringUnreadable (off : Nat)
  | invalidVersionInfoBlock
  | versionStringFileInfoStructInvalid
  | versionStringFileInfoStringUnreadable (off : Nat)
  | versionStringTableStringUnreadable (off : Nat)
  | versionStringTableKeyUnreadable (off : Nat)
  | versionStringTableValueUnreadable (off : Nat)
  | versionVarStringUnreadable (off : Nat)
  | delayImportDataInvalid (rva : Nat)
  | delayImportTableInvalid (rva : Nat)
  | importDataInvalid (rva : Nat)
  | importTableInvalid (rva : Nat)
  | importTableInvalidData (rva : Nat)
  | exportDataInvalid (rva : Nat)
  deriving Repr, DecidableEq

deriving instance DecidableEq for Except

/-- Result of an embedded computation: the `Except` value, the warnings the
computation appended to `self.__warnings`, and the net version-information
attribute updates it performed (see `VUpd` below, defined later as a plain
record; here we keep it abstract over the element type). -/
structure PRes (υ : Type) (α : Type) where
  res : Except PError α
  warns : List PWarn
  upds : List υ
  deriving Repr, DecidableEq

/-- Monadic bind: warnings and updates accumulate in program order, and an
error short-circuits while keeping what was already appended (Python mutates
`self.__warnings` before an exception propagates). -/
def PRes.bind (x : PRes υ α) (f : α → PRes υ β) : PRes υ β :=
  match x.res with
  | .error e => ⟨.error e, x.warns, x.upds⟩
  | .ok a =>
    let y := f a
    ⟨y.res, x.warns ++ y.warns, x.upds ++ y.upds⟩

instance : Monad (PRes υ) where
  pure a := ⟨.ok a, [], []⟩
  bind := PRes.bind

/-- Append one warning (a `self.__warnings.append(...)` in the source). -/
def warn (w : PWarn) : PRes υ Unit := ⟨.ok (), [w], []⟩

/-- Record one net version-information attribute update. -/
def emit (u : υ) : PRes υ Unit := ⟨.ok (), [], [u]⟩

/-- Raise an exception. -/
def praise (e : PError) : PRes υ α := ⟨.error e, [], []⟩

/-- Lift a pure `Except` computation (no warnings, no updates). -/
def liftE (e : Except PError α) : PRes υ α := ⟨e, [], []⟩


/-- `self.get_string_from_data(offset, data)`, inner `while ord(b):` loop:
accumulate bytes until a NUL byte or until indexing past the end.  The fuel
is supplied by the wrapper below with a value large enough for every run
(each iteration moves to the next index, so at most `2·len+2` iterations can
see a valid index even when starting from a negative one). -/
def get_string_loop : Nat → List Nat → Int → Nat → List Nat
  | 0, _, _, _ => []
  | fuel + 1, data, offset, b =>
    if b = 0 then []
    else
      b :: match pyIndex data (offset + 1) with
        | none => []
        | some b2 => get_string_loop fuel data (offset + 1) b2

/-- `PE.get_string_from_data(offset, data)`: ASCII string (byte run) at
`offset`, Python indexing semantics, IndexError caught and turned into
termination. -/
def get_string_from_data (offset : Int) (data : List Nat) : List Nat :=
  match pyIndex data offset with
  | none => []
  | some b => get_string_loop (2 * data.length + 2) data offset b

/-- A parsed section header (`SectionStructure` in the source) together with
its raw data slice `data`, as built by `PE.parse_sections`.  The single
storage cell aliased as `Misc`/`Misc_PhysicalAddress`/`Misc_VirtualSize` is
the field `misc`. -/
structure PESection where
  nameBytes : List Nat
  misc : Nat
  virtualAddress : Nat
  sizeOfRawData : Nat
  pointerToRawData : Nat
  pointerToRelocations : Nat
  pointerToLinenumbers : Nat
  numberOfRelocations : Nat
  numberOfLinenumbers : Nat
  characteristics : Nat
  data : List Nat
  deriving Repr, DecidableEq

/-- `SectionStructure.contains(address)`:
`address >= VirtualAddress and address < VirtualAddress + len(data)`. -/
def section_contains (s : PESection) (address : Nat) : Bool :=
  s.virtualAddress ≤ address && address < s.virtualAddress + s.data.length

/-- `SectionStructure.get_data(start, length)`: slice of the section data at
`offset = start - VirtualAddress` (Python slicing semantics). -/
def section_get_data (s : PESection) (start : Nat) (length : Option Int) : List Nat :=
  let offset : Int := (start : Int) - s.virtualAddress
  match length with
  | some l => pySlice s.data offset (some (offset + l))
  | none => pySlice s.data offset none

/-- `SectionStructure.get_offset_from_rva(rva)`:
`(rva - VirtualAddress) + PointerToRawData`. -/
def section_get_offset_from_rva (s : PESection) (rva : Nat) : Int :=
  (rva : Int) - s.virtualAddress + s.pointerToRawData

/-- One entry of `OPTIONAL_HEADER.DATA_DIRECTORY`
(`IMAGE_DATA_DIRECTORY`: VirtualAddress, Size).  The `name` attribute the
source attaches for dumping is not consulted by any parsing decision and is
not modelled. -/
structure DataDirEntry where
  virtualAddress : Nat
  size : Nat
  deriving Repr, DecidableEq

/-- The parts of the `PE` object state that the data-directory parsers read:
the raw image bytes, the computed header slice, the section list, `PE_TYPE`
(None until the optional-header magic is identified),
`OPTIONAL_HEADER.ImageBase` and `OPTIONAL_HEADER.DATA_DIRECTORY`.
No parser mutates any of these. -/
structure PECore where
  dataBytes : List Nat
  header : List Nat
  sections : List PESection
  peType : Option Nat
  imageBase : Nat
  dataDirectory : List DataDirEntry
  deriving Repr, DecidableEq

/-- `PE.get_section_by_rva(rva)`: first section containing the address. -/
def get_section_by_rva (core : PECore) (rva : Nat) : Option PESection :=
  (core.sections.filter (fun s => section_contains s rva)).head?

/-- `PE.get_data(rva, length)`: data from the containing section, else from
the header pseudo-section when `rva < len(self.header)`, else
`PEFormatError`. -/
def pe_get_data (core : PECore) (rva : Nat) (length : Option Int) :
    Except PError (List Nat) :=
  match get_section_by_rva core rva with
  | none =>
    if rva < core.header.length then
      match length with
      | some l => .ok (pySlice core.header rva (some ((rva : Int) + l)))
      | none => .ok (core.header.drop rva)
    else
      .error (.peFormat "data at RVA cannot be fetched. Corrupted header?")
  | some s => .ok (section_get_data s rva length)

/-- `PE.get_offset_from_rva(rva)`: offset within the containing section, and
`PEFormatError` when no section contains the RVA (this function has no
header-pseudo-section fallback in the source). -/
def pe_get_offset_from_rva (core : PECore) (rva : Nat) : Except PError Int :=
  match get_section_by_rva core rva with
  | none => .error (.peFormat "data at RVA cannot be fetched. Corrupted header?")
  | some s => .ok (section_get_offset_from_rva s rva)

/-- `PE.get_string_at_rva(rva)`: ASCII string via the containing section, via
the header when `rva < len(self.header)`, else `None`.  Never raises. -/
def get_string_at_rva (core : PECore) (rva : Nat) : Option (List Nat) :=
  match get_section_by_rva core rva with
  | none =>
    if rva < core.header.length then
      some (get_string_from_data rva core.header)
    else none
  | some s => some (get_string_from_data ((rva : Int) - s.virtualAddress) s.data)

/-- `PE.dword_align(offset, base)`:
`(offset+base+3) - ((offset+base+3) % 4) - base`. -/
def dword_align (offset base : Nat) : Nat :=
  ((offset + base + 3) - ((offset + base + 3) % 4)) - base

/-- `PE.get_word_from_data(data, offset)`:
`struct.unpack('<H', data[offset*2:(offset+1)*2])`.  struct.error (a crash,
not a `PEFormatError`) when the slice is shorter than two bytes. -/
def get_word_from_data (data : List Nat) (offset : Nat) : Except PError Nat :=
  let chunk := (data.take ((offset + 1) * 2)).drop (offset * 2)
  if chunk.length = 2 then .ok (leVal chunk) else .error (.crash "struct.error")

/-- `PE.get_dword_from_data(data, offset)`:
`struct.unpack('<L', data[offset*4:(offset+1)*4])`. -/
def get_dword_from_data (data : List Nat) (offset : Nat) : Except PError Nat :=
  let chunk := (data.take ((offset + 1) * 4)).drop (offset * 4)
  if chunk.length = 4 then .ok (leVal chunk) else .error (.crash "struct.error")

/-- Body of the `for idx in range(max_length)` loop of
`PE.get_string_u_at_rva`: reads 16-bit units until U+0000, a short read
(struct.error, caught, breaks) or the count is exhausted.  A `PEFormatError`
from `get_data` inside the loop propagates to the caller. -/
def get_string_u_loop (core : PECore) (rva : Nat) :
    Nat → Nat → Except PError (List Nat)
  | 0, _ => .ok []
  | count + 1, idx =>
    match pe_get_data core (rva + 2 * idx) (some 2) with
    | .error e => .error e
    | .ok chunk =>
      if chunk.length = 2 then
        let uchr := leVal chunk
        if uchr = 0 then .ok []
        else
          match get_string_u_loop core rva count (idx + 1) with
          | .error e => .error e
          | .ok s => .ok (uchr :: s)
      else .ok []

/-- `PE.get_string_u_at_rva(rva, max_length)`: `none` when the very first
two-byte read fails with `PEFormatError` (caught); a failed read later in
the loop propagates as `PEFormatError` to the caller. -/
def get_string_u_at_rva (core : PECore) (rva : Nat) (maxLength : Nat) :
    Except PError (Option (List Nat)) :=
  match pe_get_data core rva (some 2) with
  | .error _ => .ok none
  | .ok _ =>
    match get_string_u_loop core rva maxLength 0 with
    | .error e => .error e
    | .ok s => .ok (some s)

/-- `IMAGE_DOS_HEADER` (field layout per `__IMAGE_DOS_HEADER_format__`,
packed size 64). -/
structure DosHeaderS where
  e_magic : Nat
  e_cblp : Nat
  e_cp : Nat
  e_crlc : Nat
  e_cparhdr : Nat
  e_minalloc : Nat
  e_maxalloc : Nat
  e_ss : Nat
  e_sp : Nat
  e_csum : Nat
  e_ip : Nat
  e_cs : Nat
  e_lfarlc : Nat
  e_ovno : Nat
  e_res : List Nat
  e_oemid : Nat
  e_oeminfo : Nat
  e_res2 : List Nat
  e_lfanew : Nat
  deriving Repr, DecidableEq

/-- `self.__unpack_data__` on `IMAGE_DOS_HEADER`: `none` when the data is
shorter than the packed size. -/
def unpack_dos_header (d : List Nat) : Option DosHeaderS :=
  if d.length < 64 then none
  else some {
    e_magic := readLE d 0 2, e_cblp := readLE d 2 2, e_cp := readLE d 4 2,
    e_crlc := readLE d 6 2, e_cparhdr := readLE d 8 2,
    e_minalloc := readLE d 10 2, e_maxalloc := readLE d 12 2,
    e_ss := readLE d 14 2, e_sp := readLE d 16 2, e_csum := readLE d 18 2,
    e_ip := readLE d 20 2, e_cs := readLE d 22 2, e_lfarlc := readLE d 24 2,
    e_ovno := readLE d 26 2, e_res := (d.drop 28).take 8,
    e_oemid := readLE d 36 2, e_oeminfo := readLE d 38 2,
    e_res2 := (d.drop 40).take 20, e_lfanew := readLE d 60 4 }

/-- `IMAGE_NT_HEADERS` (just the Signature dword). -/
structure NtHeadersS where
  signature : Nat
  deriving Repr, DecidableEq

def unpack_nt_headers (d : List Nat) : Option NtHeadersS :=
  if d.length < 4 then none else some { signature := readLE d 0 4 }

/-- `IMAGE_FILE_HEADER` (packed size 20). -/
structure FileHeaderS where
  machine : Nat
  numberOfSections : Nat
  timeDateStamp : Nat
  pointerToSymbolTable : Nat
  numberOfSymbols : Nat
  sizeOfOptionalHeader : Nat
  characteristics : Nat
  deriving Repr, DecidableEq

def unpack_file_header (d : List Nat) : Option FileHeaderS :=
  if d.length < 20 then none
  else some {
    machine := readLE d 0 2, numberOfSections := readLE d 2 2,
    timeDateStamp := readLE d 4 4, pointerToSymbolTable := readLE d 8 4,
    numberOfSymbols := readLE d 12 4, sizeOfOptionalHeader := readLE d 16 2,
    characteristics := readLE d 18 2 }

/-- `IMAGE_OPTIONAL_HEADER` / `IMAGE_OPTIONAL_HEADER64`.  One record type for
both variants; `baseOfData` exists only in the PE32 layout, and `sizeofVal`
is the packed size of the variant used (96 for PE32, 112 for PE32+), which
the source obtains as `self.OPTIONAL_HEADER.sizeof()`. -/
structure OptHeaderS where
  magic : Nat
  majorLinkerVersion : Nat
  minorLinkerVersion : Nat
  sizeOfCode : Nat
  sizeOfInitializedData : Nat
  sizeOfUninitializedData : Nat
  addressOfEntryPoint : Nat
  baseOfCode : Nat
  baseOfData : Option Nat
  imageBase : Nat
  sectionAlignment : Nat
  fileAlignment : Nat
  majorOperatingSystemVersion : Nat
  minorOperatingSystemVersion : Nat
  majorImageVersion : Nat
  minorImageVersion : Nat
  majorSubsystemVersion : Nat
  minorSubsystemVersion : Nat
  reserved1 : Nat
  sizeOfImage : Nat
  sizeOfHeaders : Nat
  checkSum : Nat
  subsystem : Nat
  dllCharacteristics : Nat
  sizeOfStackReserve : Nat
  sizeOfStackCommit : Nat
  sizeOfHeapReserve : Nat
  sizeOfHeapCommit : Nat
  loaderFlags : Nat
  numberOfRvaAndSizes : Nat
  sizeofVal : Nat
  deriving Repr, DecidableEq

/-- Unpack of the PE32 `IMAGE_OPTIONAL_HEADER` (packed size 96). -/
def unpack_opt_header32 (d : List Nat) : Option OptHeaderS :=
  if d.length < 96 then none
  else some {
    magic := readLE d 0 2, majorLinkerVersion := readLE d 2 1,
    minorLinkerVersion := readLE d 3 1, sizeOfCode := readLE d 4 4,
    sizeOfInitializedData := readLE d 8 4,
    sizeOfUninitializedData := readLE d 12 4,
    addressOfEntryPoint := readLE d 16 4, baseOfCode := readLE d 20 4,
    baseOfData := some (readLE d 24 4), imageBase := readLE d 28 4,
    sectionAlignment := readLE d 32 4, fileAlignment := readLE d 36 4,
    majorOperatingSystemVersion := readLE d 40 2,
    minorOperatingSystemVersion := readLE d 42 2,
    majorImageVersion := readLE d 44 2, minorImageVersion := readLE d 46 2,
    majorSubsystemVersion := readLE d 48 2,
    minorSubsystemVersion := readLE d 50 2, reserved1 := readLE d 52 4,
    sizeOfImage := readLE d 56 4, sizeOfHeaders := readLE d 60 4,
    checkSum := readLE d 64 4, subsystem := readLE d 68 2,
    dllCharacteristics := readLE d 70 2, sizeOfStackReserve := readLE d 72 4,
    sizeOfStackCommit := readLE d 76 4, sizeOfHeapReserve := readLE d 80 4,
    sizeOfHeapCommit := readLE d 84 4, loaderFlags := readLE d 88 4,
    numberOfRvaAndSizes := readLE d 92 4, sizeofVal := 96 }

/-- Unpack of the PE32+ `IMAGE_OPTIONAL_HEADER64` (packed size 112). -/
def unpack_opt_header64 (d : List Nat) : Option OptHeaderS :=
  if d.length < 112 then none
  else some {
    magic := readLE d 0 2, majorLinkerVersion := readLE d 2 1,
    minorLinkerVersion := readLE d 3 1, sizeOfCode := readLE d 4 4,
    sizeOfInitializedData := readLE d 8 4,
    sizeOfUninitializedData := readLE d 12 4,
    addressOfEntryPoint := readLE d 16 4, baseOfCode := readLE d 20 4,
    baseOfData := none, imageBase := readLE d 24 8,
    sectionAlignment := readLE d 32 4, fileAlignment := readLE d 36 4,
    majorOperatingSystemVersion := readLE d 40 2,
    minorOperatingSystemVersion := readLE d 42 2,
    majorImageVersion := readLE d 44 2, minorImageVersion := readLE d 46 2,
    majorSubsystemVersion := readLE d 48 2,
    minorSubsystemVersion := readLE d 50 2, reserved1 := readLE d 52 4,
    sizeOfImage := readLE d 56 4, sizeOfHeaders := readLE d 60 4,
    checkSum := readLE d 64 4, subsystem := readLE d 68 2,
    dllCharacteristics := readLE d 70 2, sizeOfStackReserve := readLE d 72 8,
    sizeOfStackCommit := readLE d 80 8, sizeOfHeapReserve := readLE d 88 8,
    sizeOfHeapCommit := readLE d 96 8, loaderFlags := readLE d 104 4,
    numberOfRvaAndSizes := readLE d 108 4, sizeofVal := 112 }

/-- `IMAGE_SECTION_HEADER` unpacked by the *direct* `section.__unpack__`
call in `parse_sections`, which raises `PEFormatError` (rather than
returning `None`) when the data is shorter than the packed size 40.
The raw-data slice `data` is attached by the caller. -/
def unpack_section (d : List Nat) : Except PError PESection :=
  if d.length < 40 then
    .error (.peFormat "Data length less than expected header length.")
  else .ok {
    nameBytes := d.take 8, misc := readLE d 8 4,
    virtualAddress := readLE d 12 4, sizeOfRawData := readLE d 16 4,
    pointerToRawData := readLE d 20 4, pointerToRelocations := readLE d 24 4,
    pointerToLinenumbers := readLE d 28 4,
    numberOfRelocations := readLE d 32 2,
    numberOfLinenumbers := readLE d 34 2, characteristics := readLE d 36 4,
    data := [] }

/-- Whether a data slice truncated to the packed size is entirely NUL bytes
(`data.count(chr(0)) == len(data)` in `Structure.__unpack__`, evaluated
after truncation); used as the end-of-list sentinel. -/
def chunkAllZeroes (size : Nat) (d : List Nat) : Bool :=
  (d.take size).all (· = 0)

/-- `IMAGE_IMPORT_DESCRIPTOR` (packed size 20).  `originalFirstThunk` is the
single storage cell aliased as `OriginalFirstThunk`/`Characteristics`. -/
structure ImportDescS where
  originalFirstThunk : Nat
  timeDateStamp : Nat
  forwarderChain : Nat
  name : Nat
  firstThunk : Nat
  allZeroes : Bool
  deriving Repr, DecidableEq

def unpack_import_desc (d : List Nat) : Option ImportDescS :=
  if d.length < 20 then none
  else some {
    originalFirstThunk := readLE d 0 4, timeDateStamp := readLE d 4 4,
    forwarderChain := readLE d 8 4, name := readLE d 12 4,
    firstThunk := readLE d 16 4, allZeroes := chunkAllZeroes 20 d }

/-- `IMAGE_DELAY_IMPORT_DESCRIPTOR` (packed size 32). -/
structure DelayDescS where
  grAttrs : Nat
  szName : Nat
  phmod : Nat
  pIAT : Nat
  pINT : Nat
  pBoundIAT : Nat
  pUnloadIAT : Nat
  dwTimeStamp : Nat
  allZeroes : Bool
  deriving Repr, DecidableEq

def unpack_delay_desc (d : List Nat) : Option DelayDescS :=
  if d.length < 32 then none
  else some {
    grAttrs := readLE d 0 4, szName := readLE d 4 4, phmod := readLE d 8 4,
    pIAT := readLE d 12 4, pINT := readLE d 16 4,
    pBoundIAT := readLE d 20 4, pUnloadIAT := readLE d 24 4,
    dwTimeStamp := readLE d 28 4, allZeroes := chunkAllZeroes 32 d }

/-- `IMAGE_THUNK_DATA` / `IMAGE_THUNK_DATA64`: one machine word, aliased as
`ForwarderString`/`Function`/`Ordinal`/`AddressOfData`.  `sizeofVal` is the
packed size of the variant (4 or 8), used for `rva += thunk_data.sizeof()`. -/
structure ThunkS where
  addressOfData : Nat
  sizeofVal : Nat
  allZeroes : Bool
  deriving Repr, DecidableEq

def unpack_thunk32 (d : List Nat) : Option ThunkS :=
  if d.length < 4 then none
  else some { addressOfData := readLE d 0 4, sizeofVal := 4,
              allZeroes := chunkAllZeroes 4 d }

def unpack_thunk64 (d : List Nat) : Option ThunkS :=
  if d.length < 8 then none
  else some { addressOfData := readLE d 0 8, sizeofVal := 8,
              allZeroes := chunkAllZeroes 8 d }

/-- `IMAGE_EXPORT_DIRECTORY` (packed size 40). -/
structure ExportDirS where
  characteristics : Nat
  timeDateStamp : Nat
  majorVersion : Nat
  minorVersion : Nat
  name : Nat
  base : Nat
  numberOfFunctions : Nat
  numberOfNames : Nat
  addressOfFunctions : Nat
  addressOfNames : Nat
  addressOfNameOrdinals : Nat
  deriving Repr, DecidableEq

def unpack_export_dir (d : List Nat) : Option ExportDirS :=
  if d.length < 40 then none
  else some {
    characteristics := readLE d 0 4, timeDateStamp := readLE d 4 4,
    majorVersion := readLE d 8 2, minorVersion := readLE d 10 2,
    name := readLE d 12 4, base := readLE d 16 4,
    numberOfFunctions := readLE d 20 4, numberOfNames := readLE d 24 4,
    addressOfFunctions := readLE d 28 4, addressOfNames := readLE d 32 4,
    addressOfNameOrdinals := readLE d 36 4 }

/-- `IMAGE_RESOURCE_DIRECTORY` (packed size 16). -/
structure ResourceDirS where
  characteristics : Nat
  timeDateStamp : Nat
  majorVersion : Nat
  minorVersion : Nat
  numberOfNamedEntries : Nat
  numberOfIdEntries : Nat
  deriving Repr, DecidableEq

def unpack_resource_dir (d : List Nat) : Option ResourceDirS :=
  if d.length < 16 then none
  else some {
    characteristics := readLE d 0 4, timeDateStamp := readLE d 4 4,
    majorVersion := readLE d 8 2, minorVersion := readLE d 10 2,
    numberOfNamedEntries := readLE d 12 2,
    numberOfIdEntries := readLE d 14 2 }

/-- `IMAGE_RESOURCE_DIRECTORY_ENTRY` (packed size 8) together with the
derived attributes `parse_resource_entry` attaches: `NameOffset`
(`Name & 0x7FFFFFFF`), `Id` (`Name & 0xFFFF`), `DataIsDirectory`
(bit 31 of `OffsetToData`) and `OffsetToDirectory`
(`OffsetToData & 0x7FFFFFFF`). -/
structure ResourceEntryS where
  name : Nat
  offsetToData : Nat
  nameOffset : Nat
  idVal : Nat
  dataIsDirectory : Nat
  offsetToDirectory : Nat
  deriving Repr, DecidableEq

def unpack_resource_entry (d : List Nat) : Option ResourceEntryS :=
  if d.length < 8 then none
  else
    let nm := readLE d 0 4
    let od := readLE d 4 4
    some {
      name := nm, offsetToData := od, nameOffset := nm % 2 ^ 31,
      idVal := nm % 2 ^ 16, dataIsDirectory := od / 2 ^ 31,
      offsetToDirectory := od % 2 ^ 31 }

/-- `IMAGE_RESOURCE_DATA_ENTRY` (packed size 16). -/
structure ResourceDataEntryS where
  offsetToData : Nat
  size : Nat
  codePage : Nat
  reserved : Nat
  deriving Repr, DecidableEq

def unpack_resource_data_entry (d : List Nat) : Option ResourceDataEntryS :=
  if d.length < 16 then none
  else some {
    offsetToData := readLE d 0 4, size := readLE d 4 4,
    codePage := readLE d 8 4, reserved := readLE d 12 4 }

/-- The common 6-byte block header shared by `VS_VERSIONINFO`,
`StringFileInfo`, `StringTable`, `String` and `Var`
(fields Length, ValueLength, Type). -/
structure VerBlockS where
  length : Nat
  valueLength : Nat
  typeF : Nat
  deriving Repr, DecidableEq

def unpack_ver_block (d : List Nat) : Option VerBlockS :=
  if d.length < 6 then none
  else some { length := readLE d 0 2, valueLength := readLE d 2 2,
              typeF := readLE d 4 2 }

/-- `VS_FIXEDFILEINFO` (packed size 52). -/
structure FixedFileS where
  signature : Nat
  strucVersion : Nat
  fileVersionMS : Nat
  fileVersionLS : Nat
  productVersionMS : Nat
  productVersionLS : Nat
  fileFlagsMask : Nat
  fileFlags : Nat
  fileOS : Nat
  fileType : Nat
  fileSubtype : Nat
  fileDateMS : Nat
  fileDateLS : Nat
  deriving Repr, DecidableEq

def unpack_fixed_file (d : List Nat) : Option FixedFileS :=
  if d.length < 52 then none
  else some {
    signature := readLE d 0 4, strucVersion := readLE d 4 4,
    fileVersionMS := readLE d 8 4, fileVersionLS := readLE d 12 4,
    productVersionMS := readLE d 16 4, productVersionLS := readLE d 20 4,
    fileFlagsMask := readLE d 24 4, fileFlags := readLE d 28 4,
    fileOS := readLE d 32 4, fileType := readLE d 36 4,
    fileSubtype := readLE d 40 4, fileDateMS := readLE d 44 4,
    fileDateLS := readLE d 48 4 }

/-- `IMAGE_DEBUG_DIRECTORY` (packed size 28). -/
structure DebugDirS where
  characteristics : Nat
  timeDateStamp : Nat
  majorVersion : Nat
  minorVersion : Nat
  typeD : Nat
  sizeOfData : Nat
  addressOfRawData : Nat
  pointerToRawData : Nat
  deriving Repr, DecidableEq

def unpack_debug_dir (d : List Nat) : Option DebugDirS :=
  if d.length < 28 then none
  else some {
    characteristics := readLE d 0 4, timeDateStamp := readLE d 4 4,
    majorVersion := readLE d 8 2, minorVersion := readLE d 10 2,
    typeD := readLE d 12 4, sizeOfData := readLE d 16 4,
    addressOfRawData := readLE d 20 4, pointerToRawData := readLE d 24 4 }

/-- `IMAGE_BASE_RELOCATION` (packed size 8). -/
structure BaseRelocS where
  virtualAddress : Nat
  sizeOfBlock : Nat
  deriving Repr, DecidableEq

def unpack_base_reloc (d : List Nat) : Option BaseRelocS :=
  if d.length < 8 then none
  else some { virtualAddress := readLE d 0 4, sizeOfBlock := readLE d 4 4 }

/-- `IMAGE_TLS_DIRECTORY` / `IMAGE_TLS_DIRECTORY64` (packed sizes 24/40). -/
structure TlsDirS where
  startAddressOfRawData : Nat
  endAddressOfRawData : Nat
  addressOfIndex : Nat
  addressOfCallBacks : Nat
  sizeOfZeroFill : Nat
  characteristics : Nat
  deriving Repr, DecidableEq

def unpack_tls_dir32 (d : List Nat) : Option TlsDirS :=
  if d.length < 24 then none
  else some {
    startAddressOfRawData := readLE d 0 4,
    endAddressOfRawData := readLE d 4 4, addressOfIndex := readLE d 8 4,
    addressOfCallBacks := readLE d 12 4, sizeOfZeroFill := readLE d 16 4,
    characteristics := readLE d 20 4 }

def unpack_tls_dir64 (d : List Nat) : Option TlsDirS :=
  if d.length < 40 then none
  else some {
    startAddressOfRawData := readLE d 0 8,
    endAddressOfRawData := readLE d 8 8, addressOfIndex := readLE d 16 8,
    addressOfCallBacks := readLE d 24 8, sizeOfZeroFill := readLE d 32 4,
    characteristics := readLE d 36 4 }

/-- `IMAGE_BOUND_IMPORT_DESCRIPTOR` (packed size 8). -/
structure BoundDescS where
  timeDateStamp : Nat
  offsetModuleName : Nat
  numberOfModuleForwarderRefs : Nat
  allZeroes : Bool
  deriving Repr, DecidableEq

def unpack_bound_desc (d : List Nat) : Option BoundDescS :=
  if d.length < 8 then none
  else some { timeDateStamp := readLE d 0 4,
              offsetModuleName := readLE d 4 2,
              numberOfModuleForwarderRefs := readLE d 6 2,
              allZeroes := chunkAllZeroes 8 d }

/-- `IMAGE_BOUND_FORWARDER_REF` (packed size 8). -/
structure BoundRefS where
  timeDateStamp : Nat
  offsetModuleName : Nat
  reserved : Nat
  deriving Repr, DecidableEq

def unpack_bound_ref (d : List Nat) : Option BoundRefS :=
  if d.length < 8 then none
  else some { timeDateStamp := readLE d 0 4,
              offsetModuleName := readLE d 4 2, reserved := readLE d 6 2 }

/-- `IMAGE_DATA_DIRECTORY` unpack (packed size 8). -/
def unpack_data_dir (d : List Nat) : Option DataDirEntry :=
  if d.length < 8 then none
  else some { virtualAddress := readLE d 0 4, size := readLE d 4 4 }

/-- `ImportData`: one imported symbol (ordinal, name, bound address, and the
`address` attribute `FirstThunk + ImageBase + idx*4`). -/
structure ImportData where
  ordinal : Option Nat
  name : Option (List Nat)
  bound : Option Nat
  address : Nat
  deriving Repr, DecidableEq

/-- `ImportDescData`: one import descriptor with its DLL name and symbols. -/
structure ImportDescData where
  struct : ImportDescS
  imports : List ImportData
  dll : List Nat
  deriving Repr, DecidableEq

/-- `ImportDescData` as built by the delay-import walk (same container in
the source, holding an `IMAGE_DELAY_IMPORT_DESCRIPTOR`). -/
structure DelayDescData where
  struct : DelayDescS
  imports : List ImportData
  dll : List Nat
  deriving Repr, DecidableEq

/-- `ExportData`: one exported symbol. -/
structure ExportData where
  ordinal : Nat
  address : Nat
  name : Option (List Nat)
  forwarder : Option (List Nat)
  deriving Repr, DecidableEq

/-- `ExportDirData`: the export directory structure plus its symbol list. -/
structure ExportDirData where
  struct : ExportDirS
  symbols : List ExportData
  deriving Repr, DecidableEq

/-- `ResourceDataEntryData`: leaf of the resource tree (`struct` is `None`
when the leaf could not be read). -/
structure ResourceDataEntryData where
  struct : Option ResourceDataEntryS
  lang : Nat
  sublang : Nat
  deriving Repr, DecidableEq

mutual

/-- `ResourceDirData`: a resource directory with its entries. -/
inductive ResourceDirData where
  | mk (struct : ResourceDirS) (entries : List ResourceDirEntryData)

/-- `ResourceDirEntryData`: one entry, holding either a subdirectory or a
data leaf. -/
inductive ResourceDirEntryData where
  | mk (struct : ResourceEntryS) (name : Option (List Nat)) (idVal : Option Nat)
       (directory : Option ResourceDirData)
       (dataLeaf : Option ResourceDataEntryData)

end

def ResourceDirData.struct : ResourceDirData → ResourceDirS
  | .mk s _ => s

def ResourceDirData.entries : ResourceDirData → List ResourceDirEntryData
  | .mk _ e => e

def ResourceDirEntryData.struct : ResourceDirEntryData → ResourceEntryS
  | .mk s _ _ _ _ => s

def ResourceDirEntryData.name : ResourceDirEntryData → Option (List Nat)
  | .mk _ n _ _ _ => n

def ResourceDirEntryData.idVal : ResourceDirEntryData → Option Nat
  | .mk _ _ i _ _ => i

def ResourceDirEntryData.directory : ResourceDirEntryData → Option ResourceDirData
  | .mk _ _ _ d _ => d

def ResourceDirEntryData.dataLeaf : ResourceDirEntryData → Option ResourceDataEntryData
  | .mk _ _ _ _ l => l

/-- `DebugData` (struct may be `None` when the block did not unpack). -/
structure DebugData where
  struct : Option DebugDirS
  deriving Repr, DecidableEq

/-- `RelocationData`: one relocation (type nibble and computed RVA). -/
structure RelocationData where
  typeR : Nat
  rva : Nat
  deriving Repr, DecidableEq

/-- `BaseRelocationData`: one relocation block. -/
structure BaseRelocationData where
  struct : BaseRelocS
  entries : List RelocationData
  deriving Repr, DecidableEq

/-- `TlsData` (struct may be `None`). -/
structure TlsData where
  struct : Option TlsDirS
  deriving Repr, DecidableEq

/-- `BoundImportRefData`. -/
structure BoundImportRefData where
  struct : BoundRefS
  name : List Nat
  deriving Repr, DecidableEq

/-- `BoundImportDescData`. -/
structure BoundImportDescData where
  struct : BoundDescS
  name : List Nat
  entries : List BoundImportRefData
  deriving Repr, DecidableEq

/-- A `Var` structure of the version information: block header plus the
`entry` dictionary `{var_string: '0x%04x 0x%04x' % (word1, word2)}`,
modelled as the key together with the two 16-bit words. -/
structure VarRec where
  struct : VerBlockS
  entry : Option (List Nat × Nat × Nat)
  deriving Repr, DecidableEq

/-- A `StringTable` structure: block header, `LangID` key and the `entries`
dictionary (insertion-ordered association list with replacement). -/
structure STRec where
  struct : VerBlockS
  langID : List Nat
  entries : List (List Nat × Option (List Nat))
  deriving Repr, DecidableEq

/-- A top-level `StringFileInfo`/`VarFileInfo` structure appended to
`self.FileInfo`: block header, its `Key` (None when unreadable), and the
`StringTable` list or `Var` list attribute when the corresponding branch
ran (`none` = attribute never set). -/
structure SFIRec where
  struct : VerBlockS
  key : Option (List Nat)
  nameAttr : Option (List Nat)
  stringTables : Option (List STRec)
  vars : Option (List VarRec)
  deriving Repr, DecidableEq

/-- Net effect of one `parse_version_information` call on the PE object
attributes `VS_VERSIONINFO` (with its `Key`), `VS_FIXEDFILEINFO` and
`FileInfo`: each field is `some v` when the call assigned the attribute
(last assignment wins) and `none` when it left it untouched. -/
structure VUpd where
  vsVersion : Option (VerBlockS × List Nat)
  vsFixed : Option (Option FixedFileS)
  fileInfo : Option (List SFIRec)
  deriving Repr, DecidableEq

/-- Python dictionary assignment `d[k] = v` on an insertion-ordered
association list: replace in place if the key exists, else append. -/
def dictSet (l : List (List Nat × Option (List Nat))) (k : List Nat)
    (v : Option (List Nat)) : List (List Nat × Option (List Nat)) :=
  if l.any (fun p => p.1 = k) then
    l.map (fun p => if p.1 = k then (k, v) else p)
  else l ++ [(k, v)]

/-- Python truthiness of a value that is either `None` or a list: truthy
iff it is a non-empty list. -/
def pyTruthy (x : Option (List α)) : Bool :=
  match x with
  | some (_ :: _) => true
  | _ => false

/-- Catch `PEFormatError` (and only it): `some` result on success, `none`
when a `PEFormatError` was raised (its warnings are kept), any other error
propagates. -/
def ptry (x : PRes υ α) : PRes υ (Option α) :=
  match x.res with
  | .ok a => ⟨.ok (some a), x.warns, x.upds⟩
  | .error (.peFormat _) => ⟨.ok none, x.warns, x.upds⟩
  | .error e => ⟨.error e, x.warns, x.upds⟩

/-- `PE.get_import_table(rva)`: the `while True and rva:` walk.  Returns
`none` (Python `None`, with a warning) when `get_data` fails, propagates the
`PEFormatError` that `get_offset_from_rva` can raise outside the `try`, and
stops at a missing or all-zero thunk.  Bullet-by-bullet from the source:
the loop guard rejects `rva == 0` only on entry to each iteration. -/
def get_import_table_loop :
    Nat → PECore → Nat → List ThunkS → PRes VUpd (Option (List ThunkS))
  | 0, _, _, _ => praise .fuelOut
  | fuel + 1, core, rva, acc =>
    if rva = 0 then pure (some acc)
    else
      match pe_get_data core rva none with
      | .error (.peFormat _) => do
        warn (.importTableInvalidData rva)
        pure none
      | .error e => praise e
      | .ok data =>
        match core.peType with
        | some 267 =>
          match pe_get_offset_from_rva core rva with
          | .error e => praise e
          | .ok _ =>
            match unpack_thunk32 data with
            | none => pure (some acc)
            | some t =>
              if t.allZeroes then pure (some acc)
              else get_import_table_loop fuel core (rva + t.sizeofVal) (acc ++ [t])
        | some 523 =>
          match pe_get_offset_from_rva core rva with
          | .error e => praise e
          | .ok _ =>
            match unpack_thunk64 data with
            | none => pure (some acc)
            | some t =>
              if t.allZeroes then pure (some acc)
              else get_import_table_loop fuel core (rva + t.sizeofVal) (acc ++ [t])
        | _ => praise (.crash "NameError: format")

def get_import_table (fuel : Nat) (core : PECore) (rva : Nat) :
    PRes VUpd (Option (List ThunkS)) :=
  get_import_table_loop fuel core rva []

/-- The table-preference chain of `parse_imports` (source lines with the
`if not iat and ilt: ... else: return None` cascade).  `ok none` models the
`return None` (descriptor abandoned); the `TypeError` arises from `len(...)`
applied to a `None` table in the third test. -/
def import_table_select (ilt iat : Option (List ThunkS)) :
    Except PError (Option (List ThunkS)) :=
  if pyTruthy iat = false && pyTruthy ilt then .ok ilt
  else if pyTruthy iat && pyTruthy ilt = false then .ok iat
  else
    match ilt, iat with
    | some l1, some l2 =>
      if (l1.length ≠ 0 && decide (l2.length = 0)) || decide (l1.length = l2.length) then
        .ok (some l1)
      else if l1.length = 0 && l2.length ≠ 0 then .ok (some l2)
      else .ok none
    | _, _ => .error (.crash "TypeError: len() of NoneType")

/-- Reading an imported symbol by name (the `else` branch on the ordinal
flag): hint word then ASCII name.  A `PEFormatError` from `get_data` is
caught by the surrounding `try` and leaves both values `None`; the
struct.error a short hint read raises in `get_word_from_data` is *not*
caught and propagates. -/
def import_read_named (core : PECore) (addr : Nat) :
    PRes VUpd (Option Nat × Option (List Nat)) :=
  match pe_get_data core addr (some 2) with
  | .error (.peFormat _) => pure (none, none)
  | .error e => praise e
  | .ok dat =>
    match get_word_from_data dat 0 with
    | .error e => praise e
    | .ok w => pure (some w, get_string_at_rva core (addr + 2))

/-- Decoding of one thunk of the `for idx in range(len(table))` body of
`parse_imports`: the high ordinal-flag bit selects ordinal (low 16 bits)
versus named (hint word plus ASCII name); an unset `ordinal_flag` local
(invalid `PE_TYPE`) crashes; a zero `AddressOfData` leaves both `None`. -/
def import_thunk_pair (core : PECore) (t : ThunkS) :
    PRes VUpd (Option Nat × Option (List Nat)) :=
  if t.addressOfData ≠ 0 then
    match core.peType with
    | some 267 =>
      if t.addressOfData &&& (2 ^ 31) ≠ 0 then
        pure (some (t.addressOfData &&& 65535), (none : Option (List Nat)))
      else import_read_named core t.addressOfData
    | some 523 =>
      if t.addressOfData &&& (2 ^ 63) ≠ 0 then
        pure (some (t.addressOfData &&& 65535), (none : Option (List Nat)))
      else import_read_named core t.addressOfData
    | _ => praise (.crash "NameError: ordinal_flag")
  else pure ((none : Option Nat), (none : Option (List Nat)))

/-- The bound address of one entry:
`iat[idx].AddressOfData` when both tables are truthy and the two entries at
`idx` differ, else `None`. -/
def import_bound_val (ilt iat : Option (List ThunkS)) (idx : Nat) :
    PRes VUpd (Option Nat) :=
  if pyTruthy iat && pyTruthy ilt then
    match ilt, iat with
    | some l1, some l2 =>
      match l1.get? idx, l2.get? idx with
      | some a, some b =>
        pure (if a.addressOfData ≠ b.addressOfData then
                some b.addressOfData else none)
      | _, _ => praise (.crash "IndexError")
    | _, _ => praise (.crash "TypeError")
  else pure (none : Option Nat)

/-- The `for idx in range(len(table))` body of `parse_imports`: per-thunk
decode, bound address, the `address` attribute with its fixed `idx*4`
stride, and the `imp_name != '' and (imp_ord or imp_name)` filter. -/
def import_loop (core : PECore) (first_thunk : Nat)
    (ilt iat : Option (List ThunkS)) :
    List ThunkS → Nat → PRes VUpd (List ImportData)
  | [], _ => pure []
  | t :: rest, idx =>
    PRes.bind (import_thunk_pair core t) (fun pair =>
    PRes.bind (import_bound_val ilt iat idx) (fun imp_bound =>
    PRes.bind (import_loop core first_thunk ilt iat rest (idx + 1)) (fun rest2 =>
    if pair.2 ≠ some [] &&
        ((match pair.1 with | some n => n ≠ 0 | none => false) ||
         pyTruthy pair.2) then
      pure (⟨pair.1, pair.2, imp_bound,
             first_thunk + core.imageBase + idx * 4⟩ :: rest2)
    else pure rest2)))

/-- `PE.parse_imports(original_first_thunk, first_thunk, forwarder_chain)`.
The `forwarder_chain` argument is never read by the body.  `ok none` models
the `return None` of an abandoned descriptor, `ok (some entries)` the
returned list. -/
def parse_imports (fuel : Nat) (core : PECore)
    (original_first_thunk first_thunk : Nat) (fc : Option Nat) :
    PRes VUpd (Option (List ImportData)) :=
  match get_section_by_rva core first_thunk with
  | none => praise (.peFormat "Invalid/corrupted imports.")
  | some _ => do
    let _ := fc
    let ilt ← get_import_table fuel core original_first_thunk
    let iat ← get_import_table fuel core first_thunk
    match import_table_select ilt iat with
    | .error e => praise e
    | .ok none => pure none
    | .ok (some table) => do
      let entries ← import_loop core first_thunk ilt iat table 0
      pure (some entries)

/-- The `while True:` descriptor walk of `PE.parse_import_directory`. -/
def parse_import_dir_loop :
    Nat → PECore → Nat → List ImportDescData → PRes VUpd (List ImportDescData)
  | 0, _, _, _ => praise .fuelOut
  | fuel + 1, core, rva, acc =>
    match pe_get_data core rva none with
    | .error (.peFormat _) => do
      warn (.importDataInvalid rva)
      pure acc
    | .error e => praise e
    | .ok data =>
      match pe_get_offset_from_rva core rva with
      | .error e => praise e
      | .ok _ =>
        match unpack_import_desc data with
        | none => pure acc
        | some desc =>
          if desc.allZeroes then pure acc
          else do
            let att ← ptry (parse_imports fuel core desc.originalFirstThunk
              desc.firstThunk (some desc.forwarderChain))
            match att with
            | none => do
              warn (.importTableInvalid (rva + 20))
              pure acc
            | some import_data =>
              if pyTruthy import_data = false then
                parse_import_dir_loop fuel core (rva + 20) acc
              else
                match import_data with
                | some entries =>
                  match get_string_at_rva core desc.name with
                  | some (c :: cs) =>
                    parse_import_dir_loop fuel core (rva + 20)
                      (acc ++ [⟨desc, entries, c :: cs⟩])
                  | _ => parse_import_dir_loop fuel core (rva + 20) acc
                | none => parse_import_dir_loop fuel core (rva + 20) acc

/-- `PE.parse_import_directory(rva, size)`. -/
def parse_import_directory (fuel : Nat) (core : PECore) (rva size : Nat) :
    PRes VUpd (List ImportDescData) :=
  let _ := size
  parse_import_dir_loop fuel core rva []

/-- The `while True:` descriptor walk of `PE.parse_delay_import_directory`
(fields `pINT`/`pIAT`, no forwarder chain). -/
def parse_delay_import_dir_loop :
    Nat → PECore → Nat → List DelayDescData → PRes VUpd (List DelayDescData)
  | 0, _, _, _ => praise .fuelOut
  | fuel + 1, core, rva, acc =>
    match pe_get_data core rva none with
    | .error (.peFormat _) => do
      warn (.delayImportDataInvalid rva)
      pure acc
    | .error e => praise e
    | .ok data =>
      match pe_get_offset_from_rva core rva with
      | .error e => praise e
      | .ok _ =>
        match unpack_delay_desc data with
        | none => pure acc
        | some desc =>
          if desc.allZeroes then pure acc
          else do
            let att ← ptry (parse_imports fuel core desc.pINT desc.pIAT none)
            match att with
            | none => do
              warn (.delayImportTableInvalid (rva + 32))
              pure acc
            | some import_data =>
              if pyTruthy import_data = false then
                parse_delay_import_dir_loop fuel core (rva + 32) acc
              else
                match import_data with
                | some entries =>
                  match get_string_at_rva core desc.szName with
                  | some (c :: cs) =>
                    parse_delay_import_dir_loop fuel core (rva + 32)
                      (acc ++ [⟨desc, entries, c :: cs⟩])
                  | _ => parse_delay_import_dir_loop fuel core (rva + 32) acc
                | none => parse_delay_import_dir_loop fuel core (rva + 32) acc

/-- `PE.parse_delay_import_directory(rva, size)`. -/
def parse_delay_import_directory (fuel : Nat) (core : PECore) (rva size : Nat) :
    PRes VUpd (List DelayDescData) :=
  let _ := size
  parse_delay_import_dir_loop fuel core rva []

/-- The `for i in range(export_dir.NumberOfNames)` loop of
`PE.parse_export_directory`.  `ok none` models the `return None` taken when
a name-ordinal points past the functions array (directory treated as
corrupt). -/
def export_named_loop (core : PECore) (rva size : Nat) (base : Nat)
    (aon aono aof : List Nat) :
    Nat → Nat → PRes VUpd (Option (List ExportData))
  | 0, _ => pure (some [])
  | count + 1, i =>
    match get_dword_from_data aon i with
    | .error e => praise e
    | .ok nameRva =>
      let symbol_name := get_string_at_rva core nameRva
      match get_word_from_data aono i with
      | .error e => praise e
      | .ok symbol_ordinal =>
        if symbol_ordinal * 4 < aof.length then
          match get_dword_from_data aof symbol_ordinal with
          | .error e => praise e
          | .ok symbol_address => do
            let forwarder_str :=
              if rva ≤ symbol_address && symbol_address < rva + size then
                get_string_at_rva core symbol_address
              else none
            let rest ← export_named_loop core rva size base aon aono aof count (i + 1)
            match rest with
            | none => pure none
            | some l =>
              pure (some (⟨base + symbol_ordinal, symbol_address,
                           symbol_name, forwarder_str⟩ :: l))
        else pure none

/-- The `for idx in range(export_dir.NumberOfFunctions)` loop emitting
anonymous (ordinal-only) exports for ordinals not already named. -/
def export_anon_loop (core : PECore) (rva size : Nat) (base : Nat)
    (aof : List Nat) (ordinals : List Nat) :
    Nat → Nat → PRes VUpd (List ExportData)
  | 0, _ => pure []
  | count + 1, idx =>
    if (idx + base) ∈ ordinals then
      export_anon_loop core rva size base aof ordinals count (idx + 1)
    else
      match get_dword_from_data aof idx with
      | .error e => praise e
      | .ok symbol_address => do
        let forwarder_str :=
          if rva ≤ symbol_address && symbol_address < rva + size then
            get_string_at_rva core symbol_address
          else none
        let rest ← export_anon_loop core rva size base aof ordinals count (idx + 1)
        pure (⟨base + idx, symbol_address, none, forwarder_str⟩ :: rest)

/-- `PE.parse_export_directory(rva, size)`.  The initial unpack (with its
`get_offset_from_rva`) sits in a `try` that turns a `PEFormatError` into a
warning and an empty return; the three parallel-array `get_data` calls are
*outside* any `try`, so their `PEFormatError` propagates; a `None` from the
unpack crashes at the first attribute access. -/
def parse_export_directory (core : PECore) (rva size : Nat) :
    PRes VUpd (Option ExportDirData) :=
  match pe_get_data core rva none with
  | .error (.peFormat _) => do
    warn (.exportDataInvalid rva)
    pure none
  | .error e => praise e
  | .ok data =>
    match pe_get_offset_from_rva core rva with
    | .error (.peFormat _) => do
      warn (.exportDataInvalid rva)
      pure none
    | .error e => praise e
    | .ok _ =>
      match unpack_export_dir data with
      | none => praise (.crash "AttributeError: NoneType has no attribute AddressOfNames")
      | some ed =>
        match pe_get_data core ed.addressOfNames (some (ed.numberOfNames * 4)) with
        | .error e => praise e
        | .ok aon =>
          match pe_get_data core ed.addressOfNameOrdinals (some (ed.numberOfNames * 4)) with
          | .error e => praise e
          | .ok aono =>
            match pe_get_data core ed.addressOfFunctions (some (ed.numberOfFunctions * 4)) with
            | .error e => praise e
            | .ok aof => do
              let named ← export_named_loop core rva size ed.base aon aono aof
                ed.numberOfNames 0
              match named with
              | none => pure none
              | some exports => do
                let ordinals := exports.map (·.ordinal)
                let anon ← export_anon_loop core rva size ed.base aof ordinals
                  ed.numberOfFunctions 0
                pure (some ⟨ed, exports ++ anon⟩)

/-- The `while varword_offset < orig_varword_offset + var_struct.ValueLength`
word-pair loop of the `VarFileInfo` branch.  `word1`/`word2` are locals of
the whole `parse_version_information` call and keep their last value across
iterations and across Var blocks; `none` means they were never assigned. -/
def vi_words_loop :
    Nat → List Nat → Nat → Nat → Option (Nat × Nat) →
    PRes VUpd (Option (Nat × Nat))
  | 0, _, _, _, _ => praise .fuelOut
  | fuel + 1, raw, vw, stop, lastWords =>
    if vw < stop then
      match get_word_from_data ((raw.take (vw + 2)).drop vw) 0 with
      | .error e => praise e
      | .ok w1 =>
        match get_word_from_data ((raw.take (vw + 4)).drop (vw + 2)) 0 with
        | .error e => praise e
        | .ok w2 => vi_words_loop fuel raw (vw + 4) stop (some (w1, w2))
    else pure lastWords

/-- One pass of the `while True:` Var loop of the `VarFileInfo` branch.  The
loop body always ends in `if var_offset <= var_offset+var_struct.Length:
break`, a tautology on the non-negative values involved, so at most one Var
is decoded; an unreadable Var string warns and breaks before the append. -/
def vi_var_block (fuel : Nat) (core : PECore) (raw : List Nat) (odata : Nat)
    (var_off : Nat) (lastWords : Option (Nat × Nat)) :
    PRes VUpd (List VarRec × Option (Nat × Nat)) :=
  match unpack_ver_block (raw.drop var_off) with
  | none => praise (.crash "AttributeError: NoneType has no attribute sizeof")
  | some var_struct =>
    let ustr := odata + var_off + 6
    match get_string_u_at_rva core ustr 65536 with
    | .error (.peFormat _) => do
      warn (.versionVarStringUnreadable ustr)
      pure ([], lastWords)
    | .error e => praise e
    | .ok none => praise (.crash "TypeError: len() of NoneType")
    | .ok (some var_string) => do
      let vw0 := dword_align (2 * (var_string.length + 1) + var_off + 6) odata
      let lw ← vi_words_loop fuel raw vw0 (vw0 + var_struct.valueLength) lastWords
      match lw with
      | none => praise (.crash "UnboundLocalError: word1")
      | some (w1, w2) =>
        pure ([⟨var_struct, some (var_string, w1, w2)⟩], some (w1, w2))

/-- The `while entry_offset < stringtable_offset + stringtable_struct.Length`
String-entry loop of a StringTable.  A key equal to `"Length"` makes the
`setattr(stringtable_struct, key_as_char, value)` of the source overwrite
the decoded `Length` field with a unicode value, so the very next evaluation
of the loop condition computes `int + unicode` and crashes with a TypeError;
other key collisions (`ValueLength`, `Type`) replace fields no later
parsing decision reads and are not reflected in the record. -/
def vi_entries_loop :
    Nat → PECore → List Nat → Nat → Nat → Nat → VerBlockS → Nat →
    List (List Nat × Option (List Nat)) →
    PRes VUpd (List (List Nat × Option (List Nat)))
  | 0, _, _, _, _, _, _, _, _ => praise .fuelOut
  | fuel + 1, core, raw, odata, st_off, st_len, st_struct, entry_off, acc =>
    let _ := st_struct
    if entry_off < st_off + st_len then
      match unpack_ver_block (raw.drop entry_off) with
      | none => praise (.crash "AttributeError: NoneType has no attribute sizeof")
      | some str_struct =>
        let ustr := odata + entry_off + 6
        match get_string_u_at_rva core ustr 65536 with
        | .error (.peFormat _) => do
          warn (.versionStringTableKeyUnreadable ustr)
          pure acc
        | .error e => praise e
        | .ok none => praise (.crash "TypeError: len() of NoneType")
        | .ok (some key) =>
          let value_offset := dword_align (2 * (key.length + 1) + entry_off + 6) odata
          let ustr2 := odata + value_offset
          match get_string_u_at_rva core ustr2 str_struct.valueLength with
          | .error (.peFormat _) => do
            warn (.versionStringTableValueUnreadable ustr2)
            pure acc
          | .error e => praise e
          | .ok value =>
            let entry_off2 :=
              if str_struct.length = 0 then st_off + st_len
              else dword_align (str_struct.length + entry_off) odata
            let acc2 := dictSet acc key value
            if key = strU "Length" then
              praise (.crash "TypeError: unsupported operand types for +")
            else
              vi_entries_loop fuel core raw odata st_off st_len st_struct
                entry_off2 acc2
    else pure acc

/-- The `while True:` StringTable loop of the `StringFileInfo` branch. -/
def vi_stringtable_loop :
    Nat → PECore → List Nat → Nat → Nat → Nat → List STRec →
    PRes VUpd (List STRec)
  | 0, _, _, _, _, _, _ => praise .fuelOut
  | fuel + 1, core, raw, odata, st_off, sfi_len, acc =>
    match unpack_ver_block (raw.drop st_off) with
    | none => praise (.crash "AttributeError: NoneType has no attribute sizeof")
    | some st_struct =>
      let ustr := odata + st_off + 6
      match get_string_u_at_rva core ustr 65536 with
      | .error (.peFormat _) => do
        warn (.versionStringTableStringUnreadable ustr)
        pure acc
      | .error e => praise e
      | .ok none => praise (.crash "TypeError: len() of NoneType")
      | .ok (some st_string) => do
        let entry_off0 := dword_align (st_off + 6 + 2 * (st_string.length + 1)) odata
        let entries ← vi_entries_loop fuel core raw odata st_off st_struct.length
          st_struct entry_off0 []
        let acc2 := acc ++ [⟨st_struct, st_string, entries⟩]
        let st_off2 := dword_align (st_struct.length + st_off) odata
        if st_off2 ≥ sfi_len then pure acc2
        else vi_stringtable_loop fuel core raw odata st_off2 sfi_len acc2

/-- The outer `while True:` loop over StringFileInfo/VarFileInfo blocks.
Each completed iteration appends one record to `self.FileInfo` (`acc`); the
two warn-and-stop exits return the list accumulated so far, matching the
partially filled `FileInfo` attribute the source leaves behind. -/
def vi_outer_loop :
    Nat → PECore → List Nat → Nat → Nat → Nat → List SFIRec →
    Option (Nat × Nat) → PRes VUpd (List SFIRec)
  | 0, _, _, _, _, _, _, _ => praise .fuelOut
  | fuel + 1, core, raw, odata, vinfoLen, sfi_off, acc, lastWords =>
    match unpack_ver_block (raw.drop sfi_off) with
    | none => do
      warn .versionStringFileInfoStructInvalid
      pure acc
    | some sfi_struct =>
      let ustr := odata + sfi_off + 6
      match get_string_u_at_rva core ustr 65536 with
      | .error (.peFormat _) => do
        warn (.versionStringFileInfoStringUnreadable ustr)
        pure acc
      | .error e => praise e
      | .ok sfi_string => do
        let stepRes : PRes VUpd (SFIRec × Option (Nat × Nat)) :=
            (if sfi_string = some (strU "StringFileInfo") then
              if sfi_struct.typeF = 1 && sfi_struct.valueLength = 0 then do
                let st_off0 := dword_align
                  (sfi_off + 6 + 2 * ((strU "StringFileInfo").length + 1)) odata
                let sts ← vi_stringtable_loop fuel core raw odata st_off0
                  sfi_struct.length []
                pure (⟨sfi_struct, sfi_string, none, some sts, none⟩, lastWords)
              else pure (⟨sfi_struct, sfi_string, none, none, none⟩, lastWords)
            else if sfi_string = some (strU "VarFileInfo") then
              if sfi_struct.typeF = 1 && sfi_struct.valueLength = 0 then do
                let var_off0 := dword_align
                  (sfi_off + 6 + 2 * ((strU "VarFileInfo").length + 1)) odata
                let vl ← vi_var_block fuel core raw odata var_off0 lastWords
                pure (⟨sfi_struct, sfi_string, some (strU "VarFileInfo"),
                        none, some vl.1⟩, vl.2)
              else pure (⟨sfi_struct, sfi_string, some (strU "VarFileInfo"),
                           none, none⟩, lastWords)
            else pure (⟨sfi_struct, sfi_string, none, none, none⟩, lastWords))
        let pr ← stepRes
        let acc2 := acc ++ [pr.1]
        let sfi_off2 := dword_align (sfi_struct.length + sfi_off) odata
        if sfi_struct.length = 0 || sfi_off2 ≥ vinfoLen then pure acc2
        else vi_outer_loop fuel core raw odata vinfoLen sfi_off2 acc2 pr.2

/-- `PE.parse_version_information(version_struct)`: decode the
`VS_VERSIONINFO` block referenced by an `RT_VERSION` resource data entry.
The assignments to `self.VS_VERSIONINFO` (with its `Key`),
`self.VS_FIXEDFILEINFO` and `self.FileInfo` are recorded as one net `VUpd`
per non-crashing exit; a crashing exit loses the partial assignments, which
no surviving handle can observe because the exception propagates out of the
constructor. -/
def parse_version_information (fuel : Nat) (core : PECore)
    (version_struct : ResourceDataEntryS) : PRes VUpd Unit :=
  match pe_get_offset_from_rva core version_struct.offsetToData with
  | .error e => praise e
  | .ok start_offset =>
    let raw := pySlice core.dataBytes start_offset
      (some (start_offset + version_struct.size))
    match unpack_ver_block raw with
    | none => praise (.crash "AttributeError: NoneType has no attribute sizeof")
    | some vb => do
      let ustr := version_struct.offsetToData + 6
      let vstr ←
        match get_string_u_at_rva core ustr 65536 with
        | .error (.peFormat _) => do
          warn (.versionInfoStringUnreadable ustr)
          pure (none : Option (List Nat))
        | .error e => praise e
        | .ok v => pure v
      if vstr ≠ some (strU "VS_VERSION_INFO") then do
        warn .invalidVersionInfoBlock
        pure ()
      else
        match vstr with
        | none => praise (.crash "unreachable")
        | some key =>
          let ffo := dword_align (6 + 2 * (key.length + 1))
            version_struct.offsetToData
          match unpack_fixed_file (raw.drop ffo) with
          | none => praise (.crash "AttributeError: NoneType has no attribute sizeof")
          | some fx => do
            let sfi_off0 := dword_align (ffo + 52) version_struct.offsetToData
            let fi ← vi_outer_loop fuel core raw version_struct.offsetToData
              vb.length sfi_off0 [] none
            emit ⟨some (vb, key), some (some fx), some fi⟩

/-- `PE.parse_resource_data_entry(rva)`: leaf decode; an unreadable RVA warns
and yields `None`; the `get_offset_from_rva` outside the `try` propagates. -/
def parse_resource_data_entry (core : PECore) (rva : Nat) :
    PRes VUpd (Option ResourceDataEntryS) :=
  match pe_get_data core rva none with
  | .error (.peFormat _) => do
    warn (.resourceDataEntryInvalid rva)
    pure none
  | .error e => praise e
  | .ok data =>
    match pe_get_offset_from_rva core rva with
    | .error e => praise e
    | .ok _ => pure (unpack_resource_data_entry data)

/-- `PE.parse_resource_entry(rva)`: no `try` anywhere, so `get_data` and
`get_offset_from_rva` failures propagate, and an unpack returning `None`
crashes at the following `resource.NameOffset = ...` attribute access. -/
def parse_resource_entry (core : PECore) (rva : Nat) : PRes VUpd ResourceEntryS :=
  match pe_get_data core rva none with
  | .error e => praise e
  | .ok data =>
    match pe_get_offset_from_rva core rva with
    | .error e => praise e
    | .ok _ =>
      match unpack_resource_entry data with
      | none => praise (.crash "AttributeError: NoneType has no attribute Name")
      | some r => pure r

/-- The `last_entry.directory.entries[0].directory.entries[0].data.struct`
chase of the `RT_VERSION` hook; every AttributeError/IndexError/NameError on
the way is swallowed by the bare `except:` of the source, giving `None`. -/
def rt_version_chase (entries : List ResourceDirEntryData) :
    Option ResourceDataEntryS :=
  match entries.getLast? with
  | none => none
  | some le =>
    le.directory.bind (fun d => d.entries.head?)
      |>.bind (fun e0 => e0.directory)
      |>.bind (fun d2 => d2.entries.head?)
      |>.bind (fun e1 => e1.dataLeaf)
      |>.bind (fun dl => dl.struct)

mutual

/-- `PE.parse_resources_directory(rva, size=0, base_rva=None, level=0)`.
The fuel decreases by one per directory level; the entry loop below recurses
back into this function, modelling the unbounded recursion the cycle guard
is supposed to prevent. -/
def parse_resources_directory (fuel : Nat) (core : PECore) (rva size : Nat)
    (base_rva : Option Nat) (level : Nat) : PRes VUpd (Option ResourceDirData) :=
  match fuel with
  | 0 => praise .fuelOut
  | fuel' + 1 =>
    let _ := size
    let original_rva := rva
    let base := base_rva.getD rva
    match pe_get_data core rva none with
    | .error (.peFormat _) => do
      warn (.invalidResourcesData rva)
      pure none
    | .error e => praise e
    | .ok data =>
      match pe_get_offset_from_rva core rva with
      | .error e => praise e
      | .ok _ =>
        match unpack_resource_dir data with
        | none => do
          warn (.invalidResourcesStruct rva)
          pure none
        | some rdir => do
          let number_of_entries :=
            rdir.numberOfNamedEntries + rdir.numberOfIdEntries
          let entries ← parse_resources_dir_loop fuel' core (rva + 16) base
            original_rva level rdir number_of_entries 0 []
          pure (some (.mk rdir entries))
termination_by (fuel, 0)

/-- The `for idx in range(number_of_entries)` body of
`parse_resources_directory`: name/id decode, the cycle guard
(`original_rva == base_rva + res.OffsetToDirectory` breaks), recursion into
subdirectories, leaf decoding, and the top-level `RT_VERSION` hook. -/
def parse_resources_dir_loop (fuel : Nat) (core : PECore) (rva base orig level : Nat)
    (rdir : ResourceDirS) (count idx : Nat) (acc : List ResourceDirEntryData) :
    PRes VUpd (List ResourceDirEntryData) :=
  match count with
  | 0 => pure acc
  | count' + 1 => do
    let res ← parse_resource_entry core rva
    let entry_name ←
      if idx ≥ rdir.numberOfNamedEntries then
        pure (none : Option (List Nat))
      else
        match get_string_u_at_rva core (base + res.nameOffset) 65536 with
        | .error (.peFormat _) => do
          warn (.resourceEntryNameUnreadable (base + res.nameOffset))
          pure (none : Option (List Nat))
        | .error e => praise e
        | .ok v => pure v
    let entry_id :=
      if idx ≥ rdir.numberOfNamedEntries then some res.name else none
    let step : PRes VUpd (Option (List ResourceDirEntryData)) :=
      if res.dataIsDirectory = 1 then
        if orig = base + res.offsetToDirectory then pure none
        else do
          let entry_directory ← parse_resources_directory fuel core
            (base + res.offsetToDirectory) 0 (some base) (level + 1)
          match entry_directory with
          | none => pure none
          | some d =>
            pure (some (acc ++ [.mk res entry_name entry_id (some d) none]))
      else do
        let de ← parse_resource_data_entry core (base + res.offsetToDirectory)
        let entry_data : ResourceDataEntryData :=
          ⟨de, res.name % 256, (res.name / 256) % 256⟩
        pure (some (acc ++ [.mk res entry_name entry_id none (some entry_data)]))
    let stepped ← step
    match stepped with
    | none => pure acc
    | some acc2 => do
      let _ ←
        if level = 0 && res.idVal = 16 then
          match rt_version_chase acc2 with
          | some vs => parse_version_information fuel core vs
          | none => pure ()
        else pure ()
      parse_resources_dir_loop fuel core (rva + 8) base orig level rdir count'
        (idx + 1) acc2
termination_by (fuel, count + 1)

end

/-- The `for idx in range(size/dbg_size)` loop of
`PE.parse_debug_directory`: a failed `get_data` warns and makes the whole
directory `None`; the `get_offset_from_rva` outside the `try` propagates;
a `None` unpack is appended as a `DebugData` with a `None` struct. -/
def parse_debug_loop (core : PECore) (rva : Nat) :
    Nat → Nat → List DebugData → PRes VUpd (Option (List DebugData))
  | 0, _, acc => pure (some acc)
  | count + 1, idx, acc =>
    match pe_get_data core (rva + 28 * idx) (some 28) with
    | .error (.peFormat _) => do
      warn (.invalidDebugData rva)
      pure none
    | .error e => praise e
    | .ok data =>
      match pe_get_offset_from_rva core (rva + 28 * idx) with
      | .error e => praise e
      | .ok _ =>
        parse_debug_loop core rva count (idx + 1)
          (acc ++ [⟨unpack_debug_dir data⟩])

/-- `PE.parse_debug_directory(rva, size)`. -/
def parse_debug_directory (core : PECore) (rva size : Nat) :
    PRes VUpd (Option (List DebugData)) :=
  parse_debug_loop core rva (size / 28) 0 []

/-- `PE.parse_relocations(data_rva, rva, size)`: the `get_data` is outside
any `try`, so its `PEFormatError` propagates.  `size` is
`SizeOfBlock - rlc_size` computed by the caller and can be negative. -/
def parse_relocations_entries (rva : Nat) (data : List Nat) :
    Nat → Nat → List RelocationData
  | 0, _ => []
  | count + 1, idx =>
    let word := readLE data (idx * 2) 2
    ⟨word / 4096, word % 4096 + rva⟩ ::
      parse_relocations_entries rva data count (idx + 1)

def parse_relocations (core : PECore) (data_rva : Nat) (rva : Nat)
    (size : Int) : PRes VUpd (List RelocationData) :=
  match pe_get_data core data_rva (some size) with
  | .error e => praise e
  | .ok data => pure (parse_relocations_entries rva data (data.length / 2) 0)

/-- The `while rva < end:` loop of `PE.parse_relocations_directory`.  The
block unpack (with its `get_offset_from_rva`) is inside a `try` that warns
and stops; a zero `SizeOfBlock` appends the block and then stops. -/
def parse_relocations_dir_loop :
    Nat → PECore → Nat → Nat → List BaseRelocationData →
    PRes VUpd (List BaseRelocationData)
  | 0, _, _, _, _ => praise .fuelOut
  | fuel + 1, core, rva, stop, acc =>
    if rva < stop then
      match pe_get_data core rva (some 8) with
      | .error (.peFormat _) => do
        warn (.invalidRelocationData rva)
        pure acc
      | .error e => praise e
      | .ok data =>
        match pe_get_offset_from_rva core rva with
        | .error (.peFormat _) => do
          warn (.invalidRelocationData rva)
          pure acc
        | .error e => praise e
        | .ok _ =>
          match unpack_base_reloc data with
          | none => pure acc
          | some rlc => do
            let entries ← parse_relocations core (rva + 8) rlc.virtualAddress
              ((rlc.sizeOfBlock : Int) - 8)
            let acc2 := acc ++ [⟨rlc, entries⟩]
            if rlc.sizeOfBlock = 0 then pure acc2
            else
              parse_relocations_dir_loop fuel core (rva + rlc.sizeOfBlock) stop acc2
    else pure acc

/-- `PE.parse_relocations_directory(rva, size)`. -/
def parse_relocations_directory (fuel : Nat) (core : PECore) (rva size : Nat) :
    PRes VUpd (List BaseRelocationData) :=
  parse_relocations_dir_loop fuel core rva (rva + size) []

/-- `PE.parse_directory_tls(rva, size)`: format by `PE_TYPE` (an unset
format variable crashes), then a single unpack whose `get_data` and
`get_offset_from_rva` both propagate `PEFormatError`. -/
def parse_directory_tls (core : PECore) (rva size : Nat) :
    PRes VUpd TlsData :=
  let _ := size
  match core.peType with
  | some 267 =>
    match pe_get_data core rva none with
    | .error e => praise e
    | .ok data =>
      match pe_get_offset_from_rva core rva with
      | .error e => praise e
      | .ok _ => pure ⟨unpack_tls_dir32 data⟩
  | some 523 =>
    match pe_get_data core rva none with
    | .error e => praise e
    | .ok data =>
      match pe_get_offset_from_rva core rva with
      | .error e => praise e
      | .ok _ => pure ⟨unpack_tls_dir64 data⟩
  | _ => praise (.crash "NameError: format")

/-- The `for idx in range(bnd_descr.NumberOfModuleForwarderRefs)` loop of
`PE.parse_directory_bound_imports`: an unreadable forwarder ref raises
`PEFormatError` (uncaught here). -/
def bound_refs_loop (core : PECore) (start : Nat) :
    Nat → Nat → List BoundImportRefData →
    PRes VUpd (Nat × List BoundImportRefData)
  | 0, rva, acc => pure (rva, acc)
  | count + 1, rva, acc =>
    match unpack_bound_ref ((core.dataBytes.take (rva + 8)).drop rva) with
    | none => praise (.peFormat "IMAGE_BOUND_FORWARDER_REF cannot be read")
    | some r =>
      let name := get_string_from_data
        ((start : Int) + r.offsetModuleName) core.dataBytes
      bound_refs_loop core start count (rva + 8) (acc ++ [⟨r, name⟩])

/-- The `while True:` loop of `PE.parse_directory_bound_imports`.  Note the
source reads at `self.__data__[rva:rva+size]`, treating the directory RVA as
a plain file offset. -/
def parse_bound_dir_loop :
    Nat → PECore → Nat → Nat → List BoundImportDescData →
    PRes VUpd (Option (List BoundImportDescData))
  | 0, _, _, _, _ => praise .fuelOut
  | fuel + 1, core, start, rva, acc =>
    match unpack_bound_desc ((core.dataBytes.take (rva + 8)).drop rva) with
    | none => do
      warn .boundImportsUnparsable
      pure none
    | some bd =>
      if bd.allZeroes then pure (some acc)
      else do
        let refs ← bound_refs_loop core start bd.numberOfModuleForwarderRefs
          (rva + 8) []
        let name := get_string_from_data
          ((start : Int) + bd.offsetModuleName) core.dataBytes
        parse_bound_dir_loop fuel core start refs.1
          (acc ++ [⟨bd, name, refs.2⟩])

/-- `PE.parse_directory_bound_imports(rva, size)`. -/
def parse_directory_bound_imports (fuel : Nat) (core : PECore)
    (rva size : Nat) : PRes VUpd (Option (List BoundImportDescData)) :=
  let _ := size
  parse_bound_dir_loop fuel core rva rva []

/-- The eight `DIRECTORY_ENTRY_*` attributes the dispatcher can set.  The
same record doubles as the *update* computed by one dispatcher run: a field
is `some v` exactly when the corresponding `setattr` was executed. -/
structure PEDirs where
  importD : Option (List ImportDescData)
  exportD : Option ExportDirData
  resourceD : Option ResourceDirData
  debugD : Option (List DebugData)
  baserelocD : Option (List BaseRelocationData)
  tlsD : Option TlsData
  delayImportD : Option (List DelayDescData)
  boundImportD : Option (List BoundImportDescData)

/-- The fresh attribute state: nothing set. -/
def PEDirs.none0 : PEDirs := ⟨none, none, none, none, none, none, none, none⟩

/-- Apply one dispatcher run's updates over existing attributes
(`setattr` semantics: a computed truthy value overwrites, everything else
is left alone). -/
def mergeDirs (u d : PEDirs) : PEDirs where
  importD := match u.importD with | some v => some v | none => d.importD
  exportD := match u.exportD with | some v => some v | none => d.exportD
  resourceD := match u.resourceD with | some v => some v | none => d.resourceD
  debugD := match u.debugD with | some v => some v | none => d.debugD
  baserelocD := match u.baserelocD with | some v => some v | none => d.baserelocD
  tlsD := match u.tlsD with | some v => some v | none => d.tlsD
  delayImportD := match u.delayImportD with | some v => some v | none => d.delayImportD
  boundImportD := match u.boundImportD with | some v => some v | none => d.boundImportD

/-- `PE.parse_data_directories()`: walk the fixed
(IMPORT, EXPORT, RESOURCE, DEBUG, BASERELOC, TLS, DELAY_IMPORT, BOUND_IMPORT)
table in source order (directory indices 1, 0, 2, 6, 5, 9, 13, 11); an
`IndexError` on `DATA_DIRECTORY[index]` breaks out of the whole walk; a slot
with `VirtualAddress == 0` is skipped; a parser value that is Python-falsy
(`None` or an empty list) is not assigned.  Returns the update record. -/
def parse_data_directories (fuel : Nat) (core : PECore) : PRes VUpd PEDirs :=
  match core.dataDirectory.get? 1 with
  | none => pure PEDirs.none0
  | some de1 => do
    let u1 ←
      if de1.virtualAddress ≠ 0 then do
        let v ← parse_import_directory fuel core de1.virtualAddress de1.size
        pure (if v ≠ [] then { PEDirs.none0 with importD := some v }
              else PEDirs.none0)
      else pure PEDirs.none0
    match core.dataDirectory.get? 0 with
    | none => pure u1
    | some de2 => do
      let u2 ←
        if de2.virtualAddress ≠ 0 then do
          let v ← parse_export_directory core de2.virtualAddress de2.size
          pure (match v with
                | some ed => { u1 with exportD := some ed }
                | none => u1)
        else pure u1
      match core.dataDirectory.get? 2 with
      | none => pure u2
      | some de3 => do
        let u3 ←
          if de3.virtualAddress ≠ 0 then do
            let v ← parse_resources_directory fuel core de3.virtualAddress
              de3.size none 0
            pure (match v with
                  | some rd => { u2 with resourceD := some rd }
                  | none => u2)
          else pure u2
        match core.dataDirectory.get? 6 with
        | none => pure u3
        | some de4 => do
          let u4 ←
            if de4.virtualAddress ≠ 0 then do
              let v ← parse_debug_directory core de4.virtualAddress de4.size
              pure (match v with
                    | some (x :: xs) => { u3 with debugD := some (x :: xs) }
                    | _ => u3)
            else pure u3
          match core.dataDirectory.get? 5 with
          | none => pure u4
          | some de5 => do
            let u5 ←
              if de5.virtualAddress ≠ 0 then do
                let v ← parse_relocations_directory fuel core de5.virtualAddress
                  de5.size
                pure (if v ≠ [] then { u4 with baserelocD := some v } else u4)
              else pure u4
            match core.dataDirectory.get? 9 with
            | none => pure u5
            | some de6 => do
              let u6 ←
                if de6.virtualAddress ≠ 0 then do
                  let v ← parse_directory_tls core de6.virtualAddress de6.size
                  pure { u5 with tlsD := some v }
                else pure u5
              match core.dataDirectory.get? 13 with
              | none => pure u6
              | some de7 => do
                let u7 ←
                  if de7.virtualAddress ≠ 0 then do
                    let v ← parse_delay_import_directory fuel core
                      de7.virtualAddress de7.size
                    pure (if v ≠ [] then { u6 with delayImportD := some v }
                          else u6)
                  else pure u6
                match core.dataDirectory.get? 11 with
                | none => pure u7
                | some de8 =>
                  if de8.virtualAddress ≠ 0 then do
                    let v ← parse_directory_bound_imports fuel core
                      de8.virtualAddress de8.size
                    pure (match v with
                          | some (x :: xs) =>
                            { u7 with boundImportD := some (x :: xs) }
                          | _ => u7)
                  else pure u7

/-- The version-information attributes of the PE object
(`VS_VERSIONINFO` with its `Key`, `VS_FIXEDFILEINFO`, `FileInfo`);
`none` = attribute never assigned. -/
structure VInfoAttrs where
  vsVersionInfo : Option (VerBlockS × List Nat)
  vsFixedFileInfo : Option (Option FixedFileS)
  fileInfoList : Option (List SFIRec)
  deriving Repr, DecidableEq

def VInfoAttrs.none0 : VInfoAttrs := ⟨none, none, none⟩

/-- Apply one recorded net update. -/
def applyVU (a : VInfoAttrs) (u : VUpd) : VInfoAttrs where
  vsVersionInfo := match u.vsVersion with
    | some v => some v
    | none => a.vsVersionInfo
  vsFixedFileInfo := match u.vsFixed with
    | some v => some v
    | none => a.vsFixedFileInfo
  fileInfoList := match u.fileInfo with
    | some v => some v
    | none => a.fileInfoList

/-- Apply a run's updates in program order. -/
def applyVUs (a : VInfoAttrs) (us : List VUpd) : VInfoAttrs :=
  us.foldl applyVU a

/-- The observable state of a `PE` object: attributes the constructor and
`full_load` establish.  Fields that Python leaves unset until parsing are
`Option`s; `sections`, the warning list and `PE_TYPE` are initialised by
`__init__` before the early `return`. -/
structure PEHandle where
  sections : List PESection
  warnings : List PWarn
  peType : Option Nat
  dataBytes : Option (List Nat)
  headerBytes : Option (List Nat)
  dosHeader : Option DosHeaderS
  ntHeaders : Option NtHeadersS
  fileHeader : Option FileHeaderS
  optionalHeader : Option OptHeaderS
  dataDirectory : List DataDirEntry
  dirs : PEDirs
  vinfo : VInfoAttrs

/-- The read-only core the directory parsers consume, assembled from a
handle. -/
def PEHandle.coreOf (h : PEHandle) (db hb : List Nat) (oh : OptHeaderS) :
    PECore :=
  ⟨db, hb, h.sections, h.peType, oh.imageBase, h.dataDirectory⟩

/-- `PE.full_load()`: exactly one `parse_data_directories()` run over the
current state.  On success the computed attribute updates are applied and
the run's warnings are appended; an exception propagates to the caller
(whose Python-side partial mutations are then unobservable through any
returned handle). -/
def full_load_state (fuel : Nat) (h : PEHandle) : Except PError PEHandle :=
  match h.dataBytes, h.headerBytes, h.optionalHeader with
  | some db, some hb, some oh =>
    match (parse_data_directories fuel (h.coreOf db hb oh)).res with
    | .error e => .error e
    | .ok upd => .ok { h with
        dirs := mergeDirs upd h.dirs,
        vinfo := applyVUs h.vinfo
          (parse_data_directories fuel (h.coreOf db hb oh)).upds,
        warnings := h.warnings ++
          (parse_data_directories fuel (h.coreOf db hb oh)).warns }
  | _, _, _ => .error (.crash "AttributeError: missing attribute")

/-- The `for i in range(self.FILE_HEADER.NumberOfSections)` loop of
`PE.parse_sections`: a short section header raises `PEFormatError`
(direct `__unpack__`), a zero `FileAlignment` makes the alignment check
divide by zero (ZeroDivisionError crash), a misaligned `PointerToRawData`
warns, and the raw-data slice is attached. -/
def parse_sections_loop (data : List Nat) (fileAlignment : Nat) (offset : Nat) :
    Nat → Nat → List PESection → PRes VUpd (List PESection)
  | 0, _, acc => pure acc
  | count + 1, i, acc =>
    match unpack_section (data.drop (offset + 40 * i)) with
    | .error e => praise e
    | .ok sec0 =>
      if fileAlignment = 0 then praise (.crash "ZeroDivisionError")
      else do
        let _ ←
          if sec0.pointerToRawData % fileAlignment ≠ 0 then
            warn .suspiciousPointerToRawData
          else pure ()
        let sec := { sec0 with
          data := (data.take (sec0.pointerToRawData + sec0.sizeOfRawData)).drop
            sec0.pointerToRawData }
        parse_sections_loop data fileAlignment offset count (i + 1) (acc ++ [sec])

/-- `PE.parse_sections(offset)`: runs the loop, then evaluates
`return offset + section.sizeof()*self.FILE_HEADER.NumberOfSections`.
When `NumberOfSections == 0` the loop never ran and the local `section` was
never bound, so that return statement raises UnboundLocalError — a crash,
not a `PEFormatError`. -/
def parse_sections (data : List Nat) (fileAlignment : Nat) (offset : Nat)
    (numberOfSections : Nat) : PRes VUpd (List PESection × Nat) := do
  let secs ← parse_sections_loop data fileAlignment offset numberOfSections 0 []
  if numberOfSections = 0 then
    praise (.crash "UnboundLocalError: local variable section referenced before assignment")
  else pure (secs, offset + 40 * numberOfSections)

/-- The data-directory decoding loop of `PE.__parse__`: up to
`NumberOfRvaAndSizes & 0x7fffffff` iterations, stopping at an exhausted
buffer, at index 16 (the `DIRECTORY_ENTRY[i]` KeyError is caught and
breaks), or once the offset leaves
`optional_header_offset + sizeof + 8*16`; short tails are zero-padded. -/
def data_dir_loop (data : List Nat) :
    Nat → Nat → Nat → Nat → List DataDirEntry → List DataDirEntry
  | 0, _, _, _, acc => acc
  | count + 1, offset, limit, i, acc =>
    if (data.drop offset).length = 0 then acc
    else
      let chunk :=
        if (data.drop offset).length < 8 then
          data.drop offset ++ List.replicate 8 0
        else data.drop offset
      match unpack_data_dir chunk with
      | none => acc
      | some de =>
        if i ≥ 16 then acc
        else
          let acc2 := acc ++ [de]
          if offset + 8 ≥ limit then acc2
          else data_dir_loop data count (offset + 8) limit (i + 1) acc2

/-- `PE.__parse__(fname, data, fast_load)` for the in-memory-data case:
DOS header, NT signature, file header, optional header (with the PE32 and
PE32+ zero-padding retries), data-directory array, sections, header slice,
and — unless `fast_load` — the data directories.  The `IMAGE_FILE_*` /
`IMAGE_SCN_*` boolean flag decorations (`set_flags`) are not consulted by
any parsing decision and are not modelled.  The returned handle carries
empty `warnings`/`vinfo`; `pe_parse_handle` below fills them from the
accumulated writer state. -/
def pe_parse (fuel : Nat) (data : List Nat) (fast_load : Bool) :
    PRes VUpd PEHandle :=
  match unpack_dos_header data with
  | none => praise (.peFormat "DOS Header magic not found.")
  | some dos =>
    if dos.e_magic ≠ 23117 then
      praise (.peFormat "DOS Header magic not found.")
    else if dos.e_lfanew > data.length then
      praise (.peFormat "Invalid e_lfanew value, probably not a PE file")
    else
      let ntOff := dos.e_lfanew
      match unpack_nt_headers (data.drop ntOff) with
      | none => praise (.peFormat "NT Headers not found.")
      | some nt =>
        if nt.signature = 0 then praise (.peFormat "NT Headers not found.")
        else if nt.signature ≠ 17744 then
          praise (.peFormat "Invalid NT Headers signature.")
        else
          match unpack_file_header (data.drop (ntOff + 4)) with
          | none => praise (.peFormat "File Header missing")
          | some fh =>
            let oho := ntOff + 4 + 20
            let sections_offset := oho + fh.sizeOfOptionalHeader
            let oh32 :=
              match unpack_opt_header32 (data.drop oho) with
              | some o => some o
              | none =>
                if (data.drop oho).length ≥ 69 then
                  unpack_opt_header32 (data.drop oho ++ List.replicate 128 0)
                else none
            let typed : Option Nat × Option OptHeaderS :=
              match oh32 with
              | none => (none, none)
              | some o =>
                if o.magic = 267 then (some 267, some o)
                else if o.magic = 523 then
                  (some 523,
                    match unpack_opt_header64 (data.drop oho) with
                    | some q => some q
                    | none =>
                      if (data.drop oho).length ≥ 73 then
                        unpack_opt_header64 (data.drop oho ++ List.replicate 128 0)
                      else none)
                else (none, some o)
            match typed with
            | (some pt, some oh) => do
              let _ ←
                if oh.numberOfRvaAndSizes > 16 then
                  warn (.suspiciousNumberOfRvaAndSizes oh.numberOfRvaAndSizes)
                else pure ()
              let ddOffset := oho + oh.sizeofVal
              let dirList := data_dir_loop data (oh.numberOfRvaAndSizes % 2 ^ 31)
                ddOffset (oho + oh.sizeofVal + 8 * 16) 0 []
              let sr ← parse_sections data oh.fileAlignment sections_offset
                fh.numberOfSections
              let rawDataPointers :=
                (sr.1.map (·.pointerToRawData)).filter (0 < ·)
              let headerBytes :=
                match rawDataPointers.min? with
                | none => data.take sr.2
                | some lo => if lo < sr.2 then data.take sr.2 else data.take lo
              let core : PECore :=
                ⟨data, headerBytes, sr.1, some pt, oh.imageBase, dirList⟩
              let baseHandle : PEHandle :=
                ⟨sr.1, [], some pt, some data, some headerBytes, some dos,
                 some nt, some fh, some oh, dirList, PEDirs.none0,
                 VInfoAttrs.none0⟩
              if fast_load then pure baseHandle
              else do
                let upd ← parse_data_directories fuel core
                pure { baseHandle with dirs := mergeDirs upd PEDirs.none0 }
            | _ =>
              praise (.peFormat "No Optional Header found, invalid PE32 or PE32+ file")

/-- Wrapper assembling the final observable handle: the accumulated warnings
become `get_warnings()`, the accumulated updates become the
version-information attributes. -/
def pe_parse_handle (fuel : Nat) (data : List Nat) (fast_load : Bool) :
    Except PError PEHandle :=
  let r := pe_parse fuel data fast_load
  match r.res with
  | .error e => .error e
  | .ok h => .ok { h with
      warnings := r.warns,
      vinfo := applyVUs VInfoAttrs.none0 r.upds }

/-- `PE.__init__(name=None, data=None, fast_load=None)` for the in-memory
case (a file path would be read fully and then treated like `data`; file
I/O itself is outside the model).  With neither name nor data the
constructor returns right after initialising `sections`, the warning list
and `PE_TYPE`; an empty byte string is falsy and takes the same early
return.  A falsy `fast_load` argument falls back to the module-level
default, which is `False`. -/
def pe_init (fuel : Nat) (data : Option (List Nat))
    (fast_load_arg : Option Bool) : Except PError PEHandle :=
  if pyTruthy data = false then
    .ok ⟨[], [], none, none, none, none, none, none, none, [],
         PEDirs.none0, VInfoAttrs.none0⟩
  else
    match data with
    | some d =>
      pe_parse_handle fuel d (match fast_load_arg with
        | some true => true
        | _ => false)
    | none => .ok ⟨[], [], none, none, none, none, none, none, none, [],
                   PEDirs.none0, VInfoAttrs.none0⟩

/-- A field slot of a `Structure` format: a little-endian scalar of the
given byte width, or a fixed-length byte array (`8s`, `20s`), together with
the number of alias names sharing this storage cell (C unions). -/
inductive FieldSpec where
  | word (width : Nat) (aliases : Nat)
  | bytesF (len : Nat) (aliases : Nat)
  deriving Repr, DecidableEq

def FieldSpec.size : FieldSpec → Nat
  | .word w _ => w
  | .bytesF n _ => n

/-- A decoded field value (int or raw byte string). -/
inductive FieldVal where
  | num (v : Nat)
  | raw (bs : List Nat)
  deriving Repr, DecidableEq

/-- One storage cell of a decoded record: spec, decoded (original) value,
and the current value bound to each alias name, in declaration order. -/
structure PCell where
  spec : FieldSpec
  orig : FieldVal
  vals : List FieldVal
  deriving Repr, DecidableEq

/-- A decoded record as tracked in `self.__structures__`: its cells and the
file offset it was decoded at. -/
structure PackedRec where
  cells : List PCell
  fileOffset : Nat
  deriving Repr, DecidableEq

def recSpecs (r : PackedRec) : List FieldSpec := r.cells.map (·.spec)

def specsSize (specs : List FieldSpec) : Nat :=
  (specs.map FieldSpec.size).sum

/-- Decoding of the cells from a data slice (`struct.unpack` plus the
binding of every alias of a cell to the same decoded value). -/
def unpackCells : List FieldSpec → List Nat → List PCell
  | [], _ => []
  | .word w k :: rest, d =>
    ⟨.word w k, .num (leVal (d.take w)), List.replicate k (.num (leVal (d.take w)))⟩
      :: unpackCells rest (d.drop w)
  | .bytesF n k :: rest, d =>
    ⟨.bytesF n k, .raw (d.take n), List.replicate k (.raw (d.take n))⟩
      :: unpackCells rest (d.drop n)

/-- `Structure.__unpack__` as used through `__unpack_data__`: fail on a
short slice, truncate a long one. -/
def unpackRec (specs : List FieldSpec) (off : Nat) (chunk : List Nat) :
    Option PackedRec :=
  if chunk.length < specsSize specs then none
  else some ⟨unpackCells specs (chunk.take (specsSize specs)), off⟩

/-- `Structure.__pack__` on one cell: the first alias whose current value
differs from the decoded value wins; if none differs the loop leaves the
last alias's value (equal to the decoded value when unmutated). -/
def packCell (c : PCell) : FieldVal :=
  match c.vals.find? (· ≠ c.orig) with
  | some v => v
  | none => c.vals.getLast?.getD c.orig

/-- `struct.pack` of one value (an `s` field is NUL-padded/truncated to its
declared length).  A value mutated to an incompatible type would raise
struct.error in Python; that path is outside the unmutated round-trip and
encodes to nothing here. -/
def encodeVal : FieldSpec → FieldVal → List Nat
  | .word w _, .num v => encodeLE w v
  | .bytesF n _, .raw bs => bs.take n ++ List.replicate (n - bs.length) 0
  | _, _ => []

def packRec (r : PackedRec) : List Nat :=
  (r.cells.map (fun c => encodeVal c.spec (packCell c))).flatten

/-- Python list-slice assignment `file_data[off:off+len(sd)] = sd` (for
`off` beyond the end the replacement lands at the end, exactly what
`take`/`drop` give). -/
def overlay (fd : List Nat) (off : Nat) (sd : List Nat) : List Nat :=
  fd.take off ++ sd ++ fd.drop (off + sd.length)

/-- `PE.write()`: start from the original bytes and overlay every decoded
record's re-encoded bytes at its recorded file offset. -/
def write_image (data : List Nat) (recs : List PackedRec) : List Nat :=
  recs.foldl (fun fd r => overlay fd r.fileOffset (packRec r)) data

/-- No decoded field of the record was mutated: every alias still holds the
decoded value. -/
def Unmutated (r : PackedRec) : Prop :=
  ∀ c ∈ r.cells, ∀ v ∈ c.vals, v = c.orig

/-- The record was decoded (by an `__unpack_data__`-style call) from a chunk
that agrees with the image bytes at its recorded file offset wherever the
two overlap — all chunks handed to `__unpack_data__` during parsing are
slices of `self.__data__` at that offset, possibly zero-padded past the end
of the image. -/
def DecodedFrom (data : List Nat) (r : PackedRec) : Prop :=
  ∃ specs chunk,
    unpackRec specs r.fileOffset chunk = some r ∧
    (∀ b ∈ chunk, b < 256) ∧
    (∀ j, j < specsSize specs → r.fileOffset + j < data.length →
      chunk.get? j = data.get? (r.fileOffset + j))

/-- Offset `j` is covered by at least one decoded record. -/
def CoveredBy (recs : List PackedRec) (j : Nat) : Prop :=
  ∃ r ∈ recs, r.fileOffset ≤ j ∧ j < r.fileOffset + (packRec r).length

/-! Concrete instances used by counterexamples and witnesses, followed by
the claim theorems. -/

/-- A state with an empty section table and a 10-byte header: RVA 5 falls
inside the header range but `get_offset_from_rva` has no header fallback. -/
def coreHeaderOnly : PECore :=
  ⟨List.replicate 10 0, List.replicate 10 0, [], some 267, 0, []⟩

/-- A state with one section (VirtualAddress 0x1000, PointerToRawData 0x200,
16 data bytes). -/
def coreOneSection : PECore :=
  ⟨[], [], [⟨List.replicate 8 0, 0, 4096, 16, 512, 0, 0, 0, 0, 0,
    List.replicate 16 1⟩], some 267, 0, []⟩

/-- A state for the import table-selection crash: one section at RVA 0x1000
whose four data bytes are an all-zero thunk (so the IAT walk yields an empty
table), an empty header (so the ILT walk at the unmapped RVA 0x2000 fails
and yields `None`). -/
def coreImportCrash : PECore :=
  ⟨[], [], [⟨List.replicate 8 0, 0, 4096, 4, 0, 0, 0, 0, 0, 0,
    [0, 0, 0, 0]⟩], some 267, 0, []⟩

/-- A state with one named import: the IAT at RVA 0x1000 holds the thunk
0x1008 (named, hint word 5, name "A") followed by the zero terminator. -/
def coreNamedImport : PECore :=
  ⟨[], [], [⟨List.replicate 8 0, 0, 4096, 12, 0, 0, 0, 0, 0, 0,
    [8, 16, 0, 0, 0, 0, 0, 0, 5, 0, 65, 0]⟩], some 267, 0, []⟩

/-- The thunk decoded from `coreNamedImport`. -/
def namedThunk : ThunkS := ⟨4104, 4, false⟩

/-- A state with an export directory at RVA 0x1000 (Base 1, one anonymous
function whose RVA 0x1080 lies inside the directory range
[0x1000, 0x1100) but is mapped by no section and no header byte). -/
def coreExportForwarder : PECore :=
  ⟨[], [], [⟨List.replicate 8 0, 0, 4096, 44, 0, 0, 0, 0, 0, 0,
    [0, 0, 0, 0, 0, 0, 0, 0, 0, 0, 0, 0, 0, 0, 0, 0, 1, 0, 0, 0, 1, 0, 0, 0,
     0, 0, 0, 0, 40, 16, 0, 0, 0, 16, 0, 0, 0, 16, 0, 0, 128, 16, 0, 0]⟩],
   some 267, 0, []⟩

/-- An all-zero PE32 optional header record (packed size 96), used to build
concrete handles. -/
def ohZero : OptHeaderS :=
  ⟨0, 0, 0, 0, 0, 0, 0, 0, none, 0, 0, 0, 0, 0, 0, 0, 0, 0, 0, 0, 0, 0,
   0, 0, 0, 0, 0, 0, 0, 0, 96⟩

/-- A loaded handle whose import directory slot points at the unreadable
RVA 0x5000 (sections and header empty), so each dispatcher run warns once
and sets nothing. -/
def hImportWarn : PEHandle :=
  ⟨[], [], some 267, some [], some [], none, none, none, some ohZero,
   [⟨0, 0⟩, ⟨20480, 16⟩], PEDirs.none0, VInfoAttrs.none0⟩

/-- `hImportWarn` after one `full_load()`. -/
def hImportWarn1 : PEHandle :=
  { hImportWarn with warnings := [.importDataInvalid 20480] }

/-- `hImportWarn` after two `full_load()` calls: the warning is duplicated. -/
def hImportWarn2 : PEHandle :=
  { hImportWarn with
    warnings := [.importDataInvalid 20480, .importDataInvalid 20480] }

/-- Section data holding two resource directories that reference each other:
the root at RVA 0x1000 has one id entry pointing at the directory at
offset 32 (RVA 0x1020), whose single id entry points back at offset 0 (the
root).  Neither child target equals the directory currently being parsed,
so the cycle guard never fires. -/
def resCycleBytes : List Nat :=
  [0, 0, 0, 0, 0, 0, 0, 0, 0, 0, 0, 0, 0, 0, 1, 0,
   1, 0, 0, 0, 32, 0, 0, 128,
   0, 0, 0, 0, 0, 0, 0, 0,
   0, 0, 0, 0, 0, 0, 0, 0, 0, 0, 0, 0, 0, 0, 1, 0,
   1, 0, 0, 0, 0, 0, 0, 128]

/-- A state whose single section (VirtualAddress 0x1000) holds the
mutually-referencing resource directories. -/
def coreResCycle : PECore :=
  ⟨[], [], [⟨List.replicate 8 0, 0, 4096, 56, 0, 0, 0, 0, 0, 0,
    resCycleBytes⟩], some 267, 0, []⟩

/-- The root resource directory record of `coreResCycle` (one id entry). -/
def resCycleDir : ResourceDirS := ⟨0, 0, 0, 0, 0, 1⟩

/-- A 184-byte buffer that passes the DOS/NT/file-header/optional-header
checks (PE32 magic, `NumberOfRvaAndSizes = 0`) with
`NumberOfSections = 0`: `parse_sections` then evaluates
`offset + section.sizeof()*0` with the loop-local `section` never bound. -/
def bufNoSections : List Nat :=
  (((((((List.replicate 184 0).set 0 77).set 1 90).set 60 64).set 64 80).set
    65 69).set 84 96).set 88 11 |>.set 89 1

/-- A one-cell record (a single dword) decoded from the four bytes
`[1, 2, 3, 4]` at file offset 0, for the round-trip witness. -/
def wRec7 : PackedRec :=
  ⟨[⟨.word 4 1, .num 67305985, [.num 67305985]⟩], 0⟩

theorem PRes.bind_res_error {x : PRes υ α} {f : α → PRes υ β} {e : PError}
    (h : x.res = .error e) : (x >>= f).res = .error e := by
  show (PRes.bind x f).res = .error e
  unfold PRes.bind
  rw [h]

theorem PRes.bind_ok (a : α) (w : List PWarn) (u : List VUpd)
    (f : α → PRes VUpd β) :
    ((⟨.ok a, w, u⟩ : PRes VUpd α) >>= f) =
      ⟨(f a).res, w ++ (f a).warns, u ++ (f a).upds⟩ := rfl

theorem PRes.bind_res_ok {x : PRes υ α} {f : α → PRes υ β} {b : β}
    (h : (x >>= f).res = .ok b) : ∃ a, x.res = .ok a ∧ (f a).res = .ok b := by
  cases hx : x.res with
  | error e =>
    have : (x >>= f).res = .error e := PRes.bind_res_error hx
    rw [this] at h
    cases h
  | ok a =>
    refine ⟨a, rfl, ?_⟩
    have : (x >>= f).res = (f a).res := by
      show (PRes.bind x f).res = (f a).res
      unfold PRes.bind
      rw [hx]
    rw [← this, h]

theorem PRes.res_bind (x : PRes υ α) (f : α → PRes υ β) :
    (x >>= f).res = match x.res with
      | .error e => .error e
      | .ok a => (f a).res := by
  show (PRes.bind x f).res = _
  unfold PRes.bind
  cases x.res <;> rfl

theorem PRes.bind_err_of_ok (a : α) {x : PRes υ α} {f : α → PRes υ β}
    {e : PError} (hx : x.res = .ok a) (hf : (f a).res = .error e) :
    (x >>= f).res = .error e := by
  rw [PRes.res_bind, hx]
  exact hf

/-- `(l.filter p).head?` is `l.find? p`: the source computes the first
containing section by filtering and taking element 0. -/
theorem filter_head?_eq_find? (l : List PESection) (p : PESection → Bool) :
    (l.filter p).head? = l.find? p := by
  induction l with
  | nil => rfl
  | cons a t ih => by_cases h : p a <;> simp [List.filter, List.find?, h, ih]

/-- Specification of the `while ord(b):` loop for a non-negative start
index: it produces the NUL-terminated run from that index. -/
theorem get_string_loop_spec (data : List Nat) :
    ∀ (fuel off b : Nat), data.length ≤ off + fuel → data.get? off = some b →
      get_string_loop fuel data off b =
        (data.drop off).takeWhile (fun x => x != 0) := by
  intro fuel
  induction fuel with
  | zero =>
    intro off b hlen hget
    have := (List.get?_eq_some.mp hget).1
    omega
  | succ n ih =>
    intro off b hlen hget
    have hofflt : off < data.length := (List.get?_eq_some.mp hget).1
    have hdrop : data.drop off = data[off] :: data.drop (off + 1) :=
      List.drop_eq_getElem_cons hofflt
    have hb : data[off] = b := by
      have := List.get?_eq_get hofflt
      rw [hget] at this
      exact (Option.some.injEq _ _).mp this.symm
    unfold get_string_loop
    by_cases hz : b = 0
    · simp [hz, hdrop, hb, List.takeWhile]
    · have hpy : pyIndex data ((off : Int) + 1) =
          if off + 1 < data.length then data.get? (off + 1) else none := by
        unfold pyIndex
        have h1 : ¬((off : Int) + 1 < 0) := by omega
        rw [if_neg h1]
        by_cases h2 : off + 1 < data.length
        · rw [if_pos (by exact_mod_cast h2), if_pos h2]
          norm_num
        · rw [if_neg (by exact_mod_cast h2), if_neg h2]
      simp only [hz, if_neg hz, hpy]
      by_cases h2 : off + 1 < data.length
      · rw [if_pos h2]
        cases hget2 : data.get? (off + 1) with
        | none =>
          rw [List.get?_eq_none] at hget2
          omega
        | some b2 =>
          have hrec := ih (off + 1) b2 (by omega) hget2
          have hbne : (b != 0) = true := by simpa using hz
          simp only [if_false]
          rw [hdrop]
          simp only [List.takeWhile, hb, hbne]
          rw [← hrec]
          norm_num
      · rw [if_neg h2]
        have hlast : data.drop (off + 1) = [] := by
          apply List.drop_eq_nil_of_le
          omega
        rw [hdrop, hlast]
        have hbne : (b != 0) = true := by simpa using hz
        simp [List.takeWhile, hb, hbne]

/-- C9 counterexample: at the negative offset `-1` on data `"AB"`, Python
indexing wraps to the last byte and then continues from the start, so
`get_string_from_data` returns `"BAB"` — neither the empty string the claim
prescribes for an offset outside the data, nor any contiguous run of the
data. -/
theorem get_string_from_data_wraps_cx :
    get_string_from_data (-1) [65, 66] = [66, 65, 66] ∧
    get_string_from_data (-1) [65, 66] ≠ [] ∧
    get_string_from_data (-1) [65, 66] ≠ [66] := by decide

/-- C9 amended: for every byte string and every *non-negative* offset,
`get_string_from_data` returns normally with the run of bytes from that
offset up to but excluding the first NUL, stopping early at the end of the
data, and returns the empty string when the offset is at or past the end;
for negative offsets Python index wrapping applies instead. -/
theorem get_string_from_data_nonneg_spec (data : List Nat) (off : Nat) :
    get_string_from_data (off : Int) data =
      (data.drop off).takeWhile (fun x => x != 0) := by
  unfold get_string_from_data
  have hpy : pyIndex data (off : Int) =
      if off < data.length then data.get? off else none := by
    unfold pyIndex
    have h1 : ¬((off : Int) < 0) := by omega
    rw [if_neg h1]
    by_cases h2 : off < data.length
    · rw [if_pos (by exact_mod_cast h2), if_pos h2]
      norm_num
    · rw [if_neg (by exact_mod_cast h2), if_neg h2]
  rw [hpy]
  by_cases h2 : off < data.length
  · rw [if_pos h2]
    cases hget : data.get? off with
    | none =>
      rw [List.get?_eq_none] at hget
      omega
    | some b =>
      exact get_string_loop_spec data (2 * data.length + 2) off b (by omega) hget
  · rw [if_neg h2]
    have : data.drop off = [] := List.drop_eq_nil_of_le (by omega)
    rw [this]
    rfl

/-- C10: constructing `PE()` with neither a name nor data returns normally
with empty `sections`, empty warnings, `PE_TYPE is None` and no header
attributes set. -/
theorem pe_init_empty_ok (fuel : Nat) :
    pe_init fuel none none =
      .ok ⟨[], [], none, none, none, none, none, none, none, [],
           PEDirs.none0, VInfoAttrs.none0⟩ := rfl

/-- C3 counterexample: with no section containing RVA 5 and a 10-byte
header, the claim prescribes that `get_offset_from_rva` return 5 (header
treated as a pseudo-section), but the source raises `PEFormatError`: the
header fallback exists in `get_data`/`get_string_at_rva` only. -/
theorem pe_get_offset_header_no_fallback_cx :
    5 < coreHeaderOnly.header.length ∧
    get_section_by_rva coreHeaderOnly 5 = none ∧
    pe_get_offset_from_rva coreHeaderOnly 5 =
      .error (.peFormat "data at RVA cannot be fetched. Corrupted header?") := by
  refine ⟨by decide, rfl, rfl⟩

/-- C3 amended: if some section contains the RVA, `get_offset_from_rva`
returns `rva − VirtualAddress + PointerToRawData` of the *first* containing
section; otherwise it fails with `PEFormatError` — even when
`rva < len(header)` (the header-pseudo-section fallback of the claim belongs
to `get_data`/`get_string_at_rva`, not to this function). -/
theorem pe_get_offset_from_rva_amended (core : PECore) (rva : Nat) :
    (∀ s, core.sections.find? (fun s => section_contains s rva) = some s →
      pe_get_offset_from_rva core rva =
        .ok ((rva : Int) - (s.virtualAddress : Int) + (s.pointerToRawData : Int))) ∧
    (core.sections.find? (fun s => section_contains s rva) = none →
      pe_get_offset_from_rva core rva =
        .error (.peFormat "data at RVA cannot be fetched. Corrupted header?")) := by
  unfold pe_get_offset_from_rva get_section_by_rva
  rw [filter_head?_eq_find?]
  constructor
  · intro s hs
    rw [hs]
    rfl
  · intro hn
    rw [hn]

/-- C3 amended, witness: on the one-section state, RVA 0x1005 is mapped by
the section and translates to 0x1005 − 0x1000 + 0x200 = 0x205. -/
theorem pe_get_offset_from_rva_amended_witness :
    pe_get_offset_from_rva coreOneSection 4101 = .ok 517 := by
  have h := (pe_get_offset_from_rva_amended coreOneSection 4101).1
    ⟨List.replicate 8 0, 0, 4096, 16, 512, 0, 0, 0, 0, 0, List.replicate 16 1⟩
    (by decide)
  simpa using h

/-- C4 counterexample: on `coreImportCrash` the ILT read fails entirely
(`get_import_table` returns `None`) and the IAT is an empty table, i.e.
both tables are empty; the claim says such a descriptor contributes no
entries, but `parse_imports` instead crashes with a TypeError in the
selection chain (`len()` of `None`). -/
theorem parse_imports_select_crash_cx :
    (get_import_table 5 coreImportCrash 8192).res = .ok none ∧
    (get_import_table 5 coreImportCrash 4096).res = .ok (some []) ∧
    (parse_imports 5 coreImportCrash 8192 4096 none).res =
      .error (.crash "TypeError: len() of NoneType") := by
  refine ⟨rfl, rfl, rfl⟩

/-- C4 amended: *when both thunk-table reads return a table* (possibly
empty, rather than failing with `None`), `parse_imports` selects exactly by
the stated preference: both empty → the empty symbol list (the caller then
skips the descriptor); only one populated → that one; both populated with
equal length, or ILT non-empty with IAT empty → ILT; only IAT populated →
IAT; any other length mismatch → `None` (descriptor abandoned).  When a
failed (`None`) table combines with an empty one, the source crashes with a
TypeError instead (see the counterexample). -/
theorem parse_imports_preference_amended
    (fuel : Nat) (core : PECore) (oft ft : Nat) (fc : Option Nat)
    (l1 l2 : List ThunkS) (w1 w2 : List PWarn) (u1 u2 : List VUpd)
    (hsec : (get_section_by_rva core ft).isSome = true)
    (h1 : get_import_table fuel core oft = ⟨.ok (some l1), w1, u1⟩)
    (h2 : get_import_table fuel core ft = ⟨.ok (some l2), w2, u2⟩) :
    (l1 = [] ∧ l2 = [] →
      (parse_imports fuel core oft ft fc).res = .ok (some [])) ∧
    (l1 ≠ [] ∧ l2 = [] →
      (parse_imports fuel core oft ft fc).res =
        ((import_loop core ft (some l1) (some l2) l1 0) >>=
          fun es => pure (some es)).res) ∧
    (l1 = [] ∧ l2 ≠ [] →
      (parse_imports fuel core oft ft fc).res =
        ((import_loop core ft (some l1) (some l2) l2 0) >>=
          fun es => pure (some es)).res) ∧
    (l1 ≠ [] ∧ l2 ≠ [] ∧ l1.length = l2.length →
      (parse_imports fuel core oft ft fc).res =
        ((import_loop core ft (some l1) (some l2) l1 0) >>=
          fun es => pure (some es)).res) ∧
    (l1 ≠ [] ∧ l2 ≠ [] ∧ l1.length ≠ l2.length →
      (parse_imports fuel core oft ft fc).res = .ok none) := by
  obtain ⟨s, hs⟩ := Option.isSome_iff_exists.mp hsec
  have hbody : parse_imports fuel core oft ft fc =
      ((get_import_table fuel core oft) >>= fun ilt =>
       (get_import_table fuel core ft) >>= fun iat =>
       match import_table_select ilt iat with
       | .error e => praise e
       | .ok none => pure none
       | .ok (some table) =>
         (import_loop core ft ilt iat table 0) >>= fun es => pure (some es)) := by
    unfold parse_imports
    rw [hs]
  have hres : (parse_imports fuel core oft ft fc).res =
      match import_table_select (some l1) (some l2) with
      | .error e => .error e
      | .ok none => .ok none
      | .ok (some table) =>
        ((import_loop core ft (some l1) (some l2) table 0) >>=
          fun es => pure (some es)).res := by
    rw [hbody, h1, PRes.bind_ok, h2]
    show (PRes.bind _ _).res = _
    unfold PRes.bind
    cases hsel : import_table_select (some l1) (some l2) with
    | error e => simp [hsel, praise]
    | ok t =>
      cases t with
      | none => simp [hsel]; rfl
      | some table => simp [hsel]
  refine ⟨?_, ?_, ?_, ?_, ?_⟩
  · rintro ⟨rfl, rfl⟩
    rw [hres]
    rfl
  · rintro ⟨hne1, rfl⟩
    obtain ⟨x, xs, rfl⟩ := List.exists_cons_of_ne_nil hne1
    rw [hres]
    rfl
  · rintro ⟨rfl, hne2⟩
    obtain ⟨y, ys, rfl⟩ := List.exists_cons_of_ne_nil hne2
    rw [hres]
    rfl
  · rintro ⟨hne1, hne2, hlen⟩
    obtain ⟨x, xs, rfl⟩ := List.exists_cons_of_ne_nil hne1
    obtain ⟨y, ys, rfl⟩ := List.exists_cons_of_ne_nil hne2
    rw [hres]
    have : import_table_select (some (x :: xs)) (some (y :: ys)) =
        .ok (some (x :: xs)) := by
      unfold import_table_select
      simp [pyTruthy, hlen]
    rw [this]
  · rintro ⟨hne1, hne2, hlen⟩
    obtain ⟨x, xs, rfl⟩ := List.exists_cons_of_ne_nil hne1
    obtain ⟨y, ys, rfl⟩ := List.exists_cons_of_ne_nil hne2
    rw [hres]
    have : import_table_select (some (x :: xs)) (some (y :: ys)) = .ok none := by
      unfold import_table_select
      simp only [List.length_cons] at hlen
      simp [pyTruthy, hlen]
    rw [this]

/-- C4 amended, witness: on `coreNamedImport` with `OriginalFirstThunk = 0`,
the ILT is empty and the IAT holds one thunk, so the IAT drives the entry
loop (preference case "only IAT populated"). -/
theorem parse_imports_preference_witness :
    (parse_imports 5 coreNamedImport 0 4096 none).res =
      ((import_loop coreNamedImport 4096 (some []) (some [namedThunk])
        [namedThunk] 0) >>= fun es => pure (some es)).res := by
  have h := (parse_imports_preference_amended 5 coreNamedImport 0 4096 none
    [] [namedThunk] [] [] [] [] (by rfl) (by rfl) (by rfl)).2.2.1
  exact h ⟨rfl, by decide⟩

theorem pyTruthy_eq_true {x : Option (List α)} :
    pyTruthy x = true ↔ ∃ y ys, x = some (y :: ys) := by
  cases x with
  | none => simp [pyTruthy]
  | some l =>
    cases l with
    | nil => simp [pyTruthy]
    | cons y ys => simp [pyTruthy]

/-- Every entry the `parse_imports` symbol loop appends passed the
`imp_name != '' and (imp_ord or imp_name)` filter: no empty-string name and
a truthy ordinal or a truthy name. -/
theorem import_loop_entries_prop (core : PECore) (ft : Nat)
    (ilt iat : Option (List ThunkS)) :
    ∀ (table : List ThunkS) (idx : Nat) (es : List ImportData),
      (import_loop core ft ilt iat table idx).res = .ok es →
      ∀ e ∈ es, e.name ≠ some [] ∧
        ((∃ n, e.ordinal = some n ∧ n ≠ 0) ∨
         (∃ s, e.name = some s ∧ s ≠ [])) := by
  intro table
  induction table with
  | nil =>
    intro idx es h
    simp only [import_loop] at h
    have : es = [] := by
      have : (Except.ok [] : Except PError (List ImportData)) = .ok es := h
      injection this with h2
      exact h2.symm
    subst this
    intro e he
    cases he
  | cons t rest ih =>
    intro idx es h
    simp only [import_loop] at h
    obtain ⟨pair, hP, h2⟩ := PRes.bind_res_ok h
    obtain ⟨bnd, hB, h3⟩ := PRes.bind_res_ok h2
    obtain ⟨rest2, hR, h4⟩ := PRes.bind_res_ok h3
    split at h4
    case isTrue hk =>
      have hes : es = ⟨pair.1, pair.2, bnd, ft + core.imageBase + idx * 4⟩ :: rest2 := by
        have : (Except.ok (⟨pair.1, pair.2, bnd, ft + core.imageBase + idx * 4⟩ :: rest2) :
            Except PError (List ImportData)) = .ok es := h4
        injection this with h5
        exact h5.symm
      subst hes
      intro e he
      rcases List.mem_cons.mp he with rfl | hmem
      · rw [Bool.and_eq_true] at hk
        obtain ⟨hname, hor⟩ := hk
        refine ⟨by simpa using hname, ?_⟩
        rw [Bool.or_eq_true] at hor
        rcases hor with hord | hny
        · cases hp1 : pair.1 with
          | none => rw [hp1] at hord; cases hord
          | some n =>
            rw [hp1] at hord
            exact Or.inl ⟨n, rfl, by simpa using hord⟩
        · obtain ⟨y, ys, hys⟩ := pyTruthy_eq_true.mp hny
          exact Or.inr ⟨y :: ys, hys, by simp⟩
      · exact ih (idx + 1) rest2 hR e hmem
    case isFalse hk =>
      have hes : es = rest2 := by
        have : (Except.ok rest2 : Except PError (List ImportData)) = .ok es := h4
        injection this with h5
        exact h5.symm
      intro e he
      exact ih (idx + 1) rest2 hR e (hes ▸ he)

/-- C5 counterexample: on `coreNamedImport` the single produced entry is a
*named* import that also carries the hint word in its ordinal field
(`imp_ord = self.get_word_from_data(data, 0)` in the named branch), so both
ordinal and name are present — "exactly one of (ordinal present) and (name
present)" fails. -/
theorem parse_imports_named_hint_cx :
    (parse_imports 5 coreNamedImport 0 4096 none).res =
      .ok (some [⟨some 5, some [65], none, 4096⟩]) ∧
    (some 5 : Option Nat) ≠ none ∧ (some [65] : Option (List Nat)) ≠ none := by
  refine ⟨rfl, by decide, by decide⟩

/-- C5 amended: every entry `parse_imports` produces has a non-empty name
or a non-zero ordinal, and never an empty-string name; but a named entry
additionally carries its hint word in the ordinal field, so "exactly one of
ordinal/name present" does not hold (see the counterexample). -/
theorem parse_imports_entries_amended (fuel : Nat) (core : PECore)
    (oft ft : Nat) (fc : Option Nat) (entries : List ImportData)
    (h : (parse_imports fuel core oft ft fc).res = .ok (some entries)) :
    ∀ e ∈ entries, e.name ≠ some [] ∧
      ((∃ n, e.ordinal = some n ∧ n ≠ 0) ∨
       (∃ s, e.name = some s ∧ s ≠ [])) := by
  unfold parse_imports at h
  split at h
  · exact absurd h (by simp [praise])
  · obtain ⟨ilt, hilt, h2⟩ := PRes.bind_res_ok h
    obtain ⟨iat, hiat, h3⟩ := PRes.bind_res_ok h2
    split at h3
    · exact absurd h3 (by simp [praise])
    · exact absurd h3 (by simp [pure, PRes.bind])
    · rename_i table hsel
      obtain ⟨es, hloop, hpure⟩ := PRes.bind_res_ok h3
      have : es = entries := by
        have : (Except.ok (some es) : Except PError (Option (List ImportData))) =
            .ok (some entries) := hpure
        injection this with h5
        injection h5 with h6
      subst this
      exact import_loop_entries_prop core ft ilt iat table 0 es hloop

/-- C5 amended, witness: the named-import state produces one entry, and it
satisfies the amended property (non-empty name or non-zero ordinal, no
empty-string name). -/
theorem parse_imports_entries_amended_witness :
    (⟨some 5, some [65], none, 4096⟩ : ImportData).name ≠ some [] ∧
      ((∃ n, (⟨some 5, some [65], none, 4096⟩ : ImportData).ordinal = some n ∧ n ≠ 0) ∨
       (∃ s, (⟨some 5, some [65], none, 4096⟩ : ImportData).name = some s ∧ s ≠ [])) :=
  parse_imports_entries_amended 5 coreNamedImport 0 4096 none
    [⟨some 5, some [65], none, 4096⟩] rfl _ (List.mem_singleton.mpr rfl)

/-- Every anonymous export the `NumberOfFunctions` loop emits has its
forwarder equal to the string lookup when its address lies in
`[rva, rva+size)` and `None` otherwise. -/
theorem export_anon_loop_prop (core : PECore) (rva size base : Nat)
    (aof : List Nat) (ords : List Nat) :
    ∀ (count idx : Nat) (es : List ExportData),
      (export_anon_loop core rva size base aof ords count idx).res = .ok es →
      ∀ e ∈ es, e.forwarder =
        (if rva ≤ e.address && e.address < rva + size then
          get_string_at_rva core e.address else none) := by
  intro count
  induction count with
  | zero =>
    intro idx es h
    have : es = [] := by
      have : (Except.ok [] : Except PError (List ExportData)) = .ok es := h
      injection this with h2
      exact h2.symm
    subst this
    intro e he
    cases he
  | succ n ih =>
    intro idx es h
    simp only [export_anon_loop] at h
    split at h
    · intro e he
      exact ih (idx + 1) es h e he
    · split at h
      · exact absurd h (by simp [praise])
      · rename_i addr haddr
        obtain ⟨rest, hrest, h2⟩ := PRes.bind_res_ok h
        have hes : es = ⟨base + idx, addr, none,
            if rva ≤ addr && addr < rva + size then
              get_string_at_rva core addr else none⟩ :: rest := by
          have : (Except.ok (⟨base + idx, addr, none,
              if rva ≤ addr && addr < rva + size then
                get_string_at_rva core addr else none⟩ :: rest) :
              Except PError (List ExportData)) = .ok es := h2
          injection this with h3
          exact h3.symm
        intro e he
        rw [hes] at he
        rcases List.mem_cons.mp he with rfl | hmem
        · rfl
        · exact ih (idx + 1) rest hrest e hmem

/-- Every named export the `NumberOfNames` loop emits has its forwarder
equal to the string lookup when its address lies in `[rva, rva+size)` and
`None` otherwise. -/
theorem export_named_loop_prop (core : PECore) (rva size base : Nat)
    (aon aono aof : List Nat) :
    ∀ (count idx : Nat) (es : List ExportData),
      (export_named_loop core rva size base aon aono aof count idx).res =
        .ok (some es) →
      ∀ e ∈ es, e.forwarder =
        (if rva ≤ e.address && e.address < rva + size then
          get_string_at_rva core e.address else none) := by
  intro count
  induction count with
  | zero =>
    intro idx es h
    have : es = [] := by
      have : (Except.ok (some []) : Except PError (Option (List ExportData))) =
          .ok (some es) := h
      injection this with h2
      injection h2 with h3
      exact h3.symm
    subst this
    intro e he
    cases he
  | succ n ih =>
    intro idx es h
    simp only [export_named_loop] at h
    split at h
    · exact absurd h (by simp [praise])
    · rename_i nameRva hname
      split at h
      · exact absurd h (by simp [praise])
      · rename_i ord hord
        split at h
        · split at h
          · exact absurd h (by simp [praise])
          · rename_i addr haddr
            obtain ⟨rest, hrest, h2⟩ := PRes.bind_res_ok h
            cases rest with
            | none => exact Option.noConfusion (Except.ok.inj h2)
            | some l =>
              have hes : es = ⟨base + ord, addr, get_string_at_rva core nameRva,
                  if rva ≤ addr && addr < rva + size then
                    get_string_at_rva core addr else none⟩ :: l := by
                have : (Except.ok (some (⟨base + ord, addr,
                    get_string_at_rva core nameRva,
                    if rva ≤ addr && addr < rva + size then
                      get_string_at_rva core addr else none⟩ :: l)) :
                    Except PError (Option (List ExportData))) = .ok (some es) := h2
                injection this with h3
                injection h3 with h4
                exact h4.symm
              intro e he
              rw [hes] at he
              rcases List.mem_cons.mp he with rfl | hmem
              · rfl
              · exact ih (idx + 1) l hrest e hmem
        · exact Option.noConfusion (Except.ok.inj h)

/-- C6 counterexample: on `coreExportForwarder` the export directory at
(rva 0x1000, size 0x100) yields one symbol whose function address 0x1080
lies *inside* `[0x1000, 0x1100)` yet whose forwarder is `None`, because the
address is unmapped and `get_string_at_rva` returned `None`: "forwarder is
set iff the address lies within the directory range" fails. -/
theorem parse_export_forwarder_cx :
    (parse_export_directory coreExportForwarder 4096 256).res =
      .ok (some ⟨⟨0, 0, 0, 0, 0, 1, 1, 0, 4136, 4096, 4096⟩,
                  [⟨1, 4224, none, none⟩]⟩) ∧
    (4096 ≤ 4224 ∧ 4224 < 4096 + 256) ∧
    (⟨1, 4224, none, none⟩ : ExportData).forwarder = none := by
  refine ⟨rfl, by decide, rfl⟩

/-- C6 amended: for every produced export symbol, the forwarder equals the
ASCII-string lookup at the symbol address when that address lies within
[rva, rva+size), and is `None` otherwise; since the lookup itself returns
`None` for an address mapped by no section and beyond the header, an
in-range symbol can still have no forwarder (see the counterexample), so
only the "only if" half of the claimed equivalence holds. -/
theorem parse_export_forwarder_amended (core : PECore) (rva size : Nat)
    (r : ExportDirData)
    (h : (parse_export_directory core rva size).res = .ok (some r)) :
    ∀ e ∈ r.symbols, e.forwarder =
      (if rva ≤ e.address && e.address < rva + size then
        get_string_at_rva core e.address else none) := by
  unfold parse_export_directory at h
  split at h
  · exact Option.noConfusion (Except.ok.inj h)
  · exact absurd h (by simp [praise])
  · split at h
    · exact Option.noConfusion (Except.ok.inj h)
    · exact absurd h (by simp [praise])
    · split at h
      · exact absurd h (by simp [praise])
      · rename_i ed hed
        split at h
        · exact absurd h (by simp [praise])
        · rename_i aon haon
          split at h
          · exact absurd h (by simp [praise])
          · rename_i aono haono
            split at h
            · exact absurd h (by simp [praise])
            · rename_i aof haof
              obtain ⟨named, hnamed, h2⟩ := PRes.bind_res_ok h
              cases named with
              | none => exact Option.noConfusion (Except.ok.inj h2)
              | some exports =>
                obtain ⟨anon, hanon, h3⟩ := PRes.bind_res_ok h2
                have hr : r = ⟨ed, exports ++ anon⟩ := by
                  have : (Except.ok (some (⟨ed, exports ++ anon⟩ : ExportDirData)) :
                      Except PError (Option ExportDirData)) = .ok (some r) := h3
                  injection this with h4
                  injection h4 with h5
                  exact h5.symm
                subst hr
                intro e he
                rcases List.mem_append.mp he with hm | hm
                · exact export_named_loop_prop core rva size ed.base aon aono aof
                    ed.numberOfNames 0 exports hnamed e hm
                · exact export_anon_loop_prop core rva size ed.base aof
                    (exports.map (·.ordinal)) ed.numberOfFunctions 0 anon hanon e hm

/-- C6 amended, witness: applied to the concrete state, the single symbol's
forwarder equals the (in-range, `None`-valued) string lookup. -/
theorem parse_export_forwarder_amended_witness :
    (⟨1, 4224, none, none⟩ : ExportData).forwarder =
      (if 4096 ≤ 4224 && 4224 < 4096 + 256 then
        get_string_at_rva coreExportForwarder 4224 else none) :=
  parse_export_forwarder_amended coreExportForwarder 4096 256
    ⟨⟨0, 0, 0, 0, 0, 1, 1, 0, 4136, 4096, 4096⟩, [⟨1, 4224, none, none⟩]⟩
    rfl _ (List.mem_singleton.mpr rfl)

/-- Re-applying the same dispatcher update record is a no-op: `setattr`
either overwrote with the same computed value or left the attribute. -/
theorem mergeDirs_idem (u d : PEDirs) :
    mergeDirs u (mergeDirs u d) = mergeDirs u d := by
  cases u with
  | mk i e r dbg b t dl bi =>
    unfold mergeDirs
    cases i <;> cases e <;> cases r <;> cases dbg <;> cases b <;> cases t <;>
      cases dl <;> cases bi <;> rfl

/-- Last-write-wins view of one field of a version-update list. -/
def lastUpd (sel : VUpd → Option α) : List VUpd → Option α
  | [] => none
  | u :: t =>
    match lastUpd sel t with
    | some v => some v
    | none => sel u

theorem applyVUs_vsVersion (us : List VUpd) (a : VInfoAttrs) :
    (applyVUs a us).vsVersionInfo =
      match lastUpd (·.vsVersion) us with
      | some v => some v
      | none => a.vsVersionInfo := by
  induction us generalizing a with
  | nil => rfl
  | cons u t ih =>
    show (applyVUs (applyVU a u) t).vsVersionInfo = _
    rw [ih]
    simp only [lastUpd]
    cases lastUpd (·.vsVersion) t with
    | some v => rfl
    | none =>
      show (applyVU a u).vsVersionInfo = _
      unfold applyVU
      cases u.vsVersion <;> rfl

theorem applyVUs_vsFixed (us : List VUpd) (a : VInfoAttrs) :
    (applyVUs a us).vsFixedFileInfo =
      match lastUpd (·.vsFixed) us with
      | some v => some v
      | none => a.vsFixedFileInfo := by
  induction us generalizing a with
  | nil => rfl
  | cons u t ih =>
    show (applyVUs (applyVU a u) t).vsFixedFileInfo = _
    rw [ih]
    simp only [lastUpd]
    cases lastUpd (·.vsFixed) t with
    | some v => rfl
    | none =>
      show (applyVU a u).vsFixedFileInfo = _
      unfold applyVU
      cases u.vsFixed <;> rfl

theorem applyVUs_fileInfo (us : List VUpd) (a : VInfoAttrs) :
    (applyVUs a us).fileInfoList =
      match lastUpd (·.fileInfo) us with
      | some v => some v
      | none => a.fileInfoList := by
  induction us generalizing a with
  | nil => rfl
  | cons u t ih =>
    show (applyVUs (applyVU a u) t).fileInfoList = _
    rw [ih]
    simp only [lastUpd]
    cases lastUpd (·.fileInfo) t with
    | some v => rfl
    | none =>
      show (applyVU a u).fileInfoList = _
      unfold applyVU
      cases u.fileInfo <;> rfl

theorem VInfoAttrs.ext2 (x y : VInfoAttrs)
    (h1 : x.vsVersionInfo = y.vsVersionInfo)
    (h2 : x.vsFixedFileInfo = y.vsFixedFileInfo)
    (h3 : x.fileInfoList = y.fileInfoList) : x = y := by
  cases x
  cases y
  simp only at h1 h2 h3
  rw [h1, h2, h3]

/-- Re-applying the same run's version-information updates is a no-op:
every recorded assignment is keep-or-constant per attribute. -/
theorem applyVUs_idem (a : VInfoAttrs) (us : List VUpd) :
    applyVUs (applyVUs a us) us = applyVUs a us := by
  apply VInfoAttrs.ext2
  · rw [applyVUs_vsVersion us (applyVUs a us), applyVUs_vsVersion us a]
    cases lastUpd (·.vsVersion) us <;> rfl
  · rw [applyVUs_vsFixed us (applyVUs a us), applyVUs_vsFixed us a]
    cases lastUpd (·.vsFixed) us <;> rfl
  · rw [applyVUs_fileInfo us (applyVUs a us), applyVUs_fileInfo us a]
    cases lastUpd (·.fileInfo) us <;> rfl

/-- C8 counterexample: on `hImportWarn` the dispatcher emits one warning
per run; after a second `full_load()` the warning list holds the warning
twice, so the observable state — which the claim says is unchanged,
explicitly including `get_warnings()` — differs. -/
theorem full_load_warn_dup_cx :
    full_load_state 2 hImportWarn = .ok hImportWarn1 ∧
    full_load_state 2 hImportWarn1 = .ok hImportWarn2 ∧
    hImportWarn2.warnings ≠ hImportWarn1.warnings := by
  refine ⟨rfl, rfl, by decide⟩

theorem full_load_state_ok (fuel : Nat) (g g2 : PEHandle) (db hbb : List Nat)
    (oh : OptHeaderS)
    (e1 : g.dataBytes = some db) (e2 : g.headerBytes = some hbb)
    (e3 : g.optionalHeader = some oh)
    (hok : full_load_state fuel g = Except.ok g2) :
    ∃ upd, (parse_data_directories fuel (g.coreOf db hbb oh)).res = Except.ok upd ∧
      g2 = { g with
        dirs := mergeDirs upd g.dirs,
        vinfo := applyVUs g.vinfo
          (parse_data_directories fuel (g.coreOf db hbb oh)).upds,
        warnings := g.warnings ++
          (parse_data_directories fuel (g.coreOf db hbb oh)).warns } := by
  unfold full_load_state at hok
  split at hok
  · rename_i db2 hbb2 oh2 f1 f2 f3
    obtain rfl : db2 = db := by
      rw [e1] at f1
      exact (Option.some.inj f1).symm
    obtain rfl : hbb2 = hbb := by
      rw [e2] at f2
      exact (Option.some.inj f2).symm
    obtain rfl : oh2 = oh := by
      rw [e3] at f3
      exact (Option.some.inj f3).symm
    split at hok
    · exact Except.noConfusion hok
    · rename_i upd hupd
      exact ⟨upd, hupd, (Except.ok.inj hok).symm⟩
  · exact Except.noConfusion hok

/-- C8 amended: a second `full_load()` leaves every `DIRECTORY_ENTRY_*`
attribute and every version-information attribute equal to its state after
the first call, but it re-runs the dispatcher and appends the run warnings
again, so the list returned by `get_warnings()` grows by exactly the
warnings of the first run beyond the pre-existing ones. -/
theorem full_load_idempotent_amended (fuel : Nat) (h h1 h2 : PEHandle)
    (ha : full_load_state fuel h = Except.ok h1)
    (hb : full_load_state fuel h1 = Except.ok h2) :
    h2.dirs = h1.dirs ∧ h2.vinfo = h1.vinfo ∧
    h2.warnings = h1.warnings ++ h1.warnings.drop h.warnings.length := by
  rcases hdb : h.dataBytes with _ | db
  · exfalso
    unfold full_load_state at ha
    rw [hdb] at ha
    exact Except.noConfusion ha
  rcases hhb : h.headerBytes with _ | hbb
  · exfalso
    unfold full_load_state at ha
    rw [hdb, hhb] at ha
    exact Except.noConfusion ha
  rcases hoh : h.optionalHeader with _ | oh
  · exfalso
    unfold full_load_state at ha
    rw [hdb, hhb, hoh] at ha
    exact Except.noConfusion ha
  obtain ⟨upd, hres, hh1⟩ := full_load_state_ok fuel h h1 db hbb oh hdb hhb hoh ha
  have hdb1 : h1.dataBytes = some db := by rw [hh1]; exact hdb
  have hhb1 : h1.headerBytes = some hbb := by rw [hh1]; exact hhb
  have hoh1 : h1.optionalHeader = some oh := by rw [hh1]; exact hoh
  obtain ⟨upd2, hres2, hh2⟩ :=
    full_load_state_ok fuel h1 h2 db hbb oh hdb1 hhb1 hoh1 hb
  have hcore : h1.coreOf db hbb oh = h.coreOf db hbb oh := by
    rw [hh1]
    rfl
  rw [hcore] at hres2 hh2
  have hupd : upd = upd2 := Except.ok.inj (hres ▸ hres2)
  subst hupd
  subst hh2
  subst hh1
  refine ⟨?_, ?_, ?_⟩
  · show mergeDirs upd (mergeDirs upd h.dirs) = mergeDirs upd h.dirs
    exact mergeDirs_idem upd h.dirs
  · show applyVUs (applyVUs h.vinfo
        (parse_data_directories fuel (h.coreOf db hbb oh)).upds)
        (parse_data_directories fuel (h.coreOf db hbb oh)).upds =
      applyVUs h.vinfo (parse_data_directories fuel (h.coreOf db hbb oh)).upds
    exact applyVUs_idem _ _
  · show (h.warnings ++ (parse_data_directories fuel (h.coreOf db hbb oh)).warns)
        ++ (parse_data_directories fuel (h.coreOf db hbb oh)).warns =
      (h.warnings ++ (parse_data_directories fuel (h.coreOf db hbb oh)).warns)
        ++ ((h.warnings ++
          (parse_data_directories fuel (h.coreOf db hbb oh)).warns).drop
            h.warnings.length)
    rw [List.drop_left]

theorem full_load_idempotent_amended_witness :
    hImportWarn2.dirs = hImportWarn1.dirs ∧
    hImportWarn2.vinfo = hImportWarn1.vinfo ∧
    hImportWarn2.warnings =
      hImportWarn1.warnings ++
        hImportWarn1.warnings.drop hImportWarn.warnings.length :=
  full_load_idempotent_amended 2 hImportWarn hImportWarn1 hImportWarn2 rfl rfl

theorem res_cycle_helper : ∀ (n level : Nat),
    (parse_resources_directory n coreResCycle 4096 0 (some 4096) level).res
      = .error .fuelOut ∧
    (parse_resources_directory n coreResCycle 4128 0 (some 4096) level).res
      = .error .fuelOut := by
  intro n
  induction n with
  | zero =>
    intro level
    constructor
    · unfold parse_resources_directory
      rfl
    · unfold parse_resources_directory
      rfl
  | succ n ih =>
    intro level
    constructor
    · unfold parse_resources_directory
      apply PRes.bind_res_error
      unfold parse_resources_dir_loop
      refine PRes.bind_err_of_ok _ rfl ?_
      refine PRes.bind_err_of_ok _ rfl ?_
      apply PRes.bind_res_error
      apply PRes.bind_res_error
      exact (ih (level + 1)).2
    · unfold parse_resources_directory
      apply PRes.bind_res_error
      unfold parse_resources_dir_loop
      refine PRes.bind_err_of_ok _ rfl ?_
      refine PRes.bind_err_of_ok _ rfl ?_
      apply PRes.bind_res_error
      apply PRes.bind_res_error
      exact (ih (level + 1)).1

/-- C2: the resource-directory walk does not terminate on every input.  On
`coreResCycle` — two directories whose single entries point at each other —
the walk from the root at RVA 0x1000 (as `parse_data_directories` invokes
it) exhausts every fuel bound: the guard only compares the child offset
against the RVA of the directory currently being parsed, so a cycle of
length two never trips it and the mutual recursion is unbounded. -/
theorem parse_resources_cycle_nonterminating (n : Nat) :
    (parse_resources_directory n coreResCycle 4096 0 none 0).res
      = .error .fuelOut := by
  cases n with
  | zero =>
    unfold parse_resources_directory
    rfl
  | succ n =>
    unfold parse_resources_directory
    apply PRes.bind_res_error
    unfold parse_resources_dir_loop
    refine PRes.bind_err_of_ok _ rfl ?_
    refine PRes.bind_err_of_ok _ rfl ?_
    apply PRes.bind_res_error
    apply PRes.bind_res_error
    exact (res_cycle_helper n 1).2

set_option maxRecDepth 8000 in
/-- C1: the full parse is not crash-free on every byte buffer.
`bufNoSections` passes every DOS/NT/file-header/optional-header check with
`NumberOfSections = 0`, and `parse_sections` then evaluates the loop-local
`section` variable that the zero-iteration loop never bound: the parse
fails with an UnboundLocalError crash (a Python runtime error), not with a
typed `PEFormatError`, refuting the claim both for the raw parse and for
the `PE(data=...)` constructor entry point. -/
theorem pe_parse_no_sections_crash :
    (pe_parse 16 bufNoSections false).res =
      .error (.crash
        "UnboundLocalError: local variable section referenced before assignment") ∧
    pe_init 16 (some bufNoSections) none =
      .error (.crash
        "UnboundLocalError: local variable section referenced before assignment") :=
  ⟨rfl, rfl⟩

theorem encodeLE_leVal : ∀ (d : List Nat), (∀ b ∈ d, b < 256) →
    encodeLE d.length (leVal d) = d := by
  intro d
  induction d with
  | nil => intro _; rfl
  | cons b bs ih =>
    intro hb
    have hblt : b < 256 := hb b (List.mem_cons_self b bs)
    show (b + 256 * leVal bs) % 256
        :: encodeLE bs.length ((b + 256 * leVal bs) / 256) = b :: bs
    rw [Nat.add_mul_mod_self_left, Nat.mod_eq_of_lt hblt,
      Nat.add_mul_div_left b (leVal bs) (by norm_num),
      Nat.div_eq_of_lt hblt, Nat.zero_add,
      ih (fun x hx => hb x (List.mem_cons_of_mem b hx))]

theorem getLast?_replicate_succ (o : FieldVal) :
    ∀ (k : Nat), (List.replicate (k + 1) o).getLast? = some o := by
  intro k
  induction k with
  | zero => rfl
  | succ k ih =>
    show (o :: o :: List.replicate k o).getLast? = some o
    rw [List.getLast?_cons_cons]
    exact ih

theorem packCell_replicate (s : FieldSpec) (o : FieldVal) (k : Nat) :
    packCell ⟨s, o, List.replicate k o⟩ = o := by
  have hf : (List.replicate k o).find? (fun v => v ≠ o) = none := by
    rw [List.find?_eq_none]
    intro x hx
    rw [List.eq_of_mem_replicate hx]
    simp
  show (match (List.replicate k o).find? (fun v => v ≠ o) with
    | some v => v
    | none => (List.replicate k o).getLast?.getD o) = o
  rw [hf]
  cases k with
  | zero => rfl
  | succ k =>
    show (List.replicate (k + 1) o).getLast?.getD o = o
    rw [getLast?_replicate_succ o k]
    rfl

theorem specsSize_cons (s : FieldSpec) (rest : List FieldSpec) :
    specsSize (s :: rest) = s.size + specsSize rest := by
  simp [specsSize]

theorem packCells_unpack : ∀ (specs : List FieldSpec) (d : List Nat),
    (∀ b ∈ d, b < 256) → specsSize specs ≤ d.length →
    ((unpackCells specs d).map (fun c => encodeVal c.spec (packCell c))).flatten
      = d.take (specsSize specs) := by
  intro specs
  induction specs with
  | nil => intro d _ _; rfl
  | cons s rest ih =>
    intro d hb hsz
    rw [specsSize_cons] at hsz ⊢
    have hb2 : ∀ x ∈ d.drop s.size, x < 256 :=
      fun x hx => hb x (List.mem_of_mem_drop hx)
    have hsz2 : specsSize rest ≤ (d.drop s.size).length := by
      rw [List.length_drop]
      omega
    have hszle : s.size ≤ d.length := by omega
    have htk : (d.take s.size).length = s.size := by
      rw [List.length_take]
      exact Nat.min_eq_left hszle
    cases s with
    | word w k =>
      simp only [FieldSpec.size] at hsz hb2 hsz2 hszle htk
      show encodeVal (.word w k)
          (packCell ⟨.word w k, .num (leVal (d.take w)),
            List.replicate k (.num (leVal (d.take w)))⟩)
          ++ ((unpackCells rest (d.drop w)).map
            (fun c => encodeVal c.spec (packCell c))).flatten
        = d.take (w + specsSize rest)
      rw [packCell_replicate]
      show encodeLE w (leVal (d.take w))
          ++ ((unpackCells rest (d.drop w)).map
            (fun c => encodeVal c.spec (packCell c))).flatten
        = d.take (w + specsSize rest)
      have henc : encodeLE w (leVal (d.take w)) = d.take w := by
        have he := encodeLE_leVal (d.take w)
          (fun x hx => hb x (List.mem_of_mem_take hx))
        rw [htk] at he
        exact he
      rw [henc, ih (d.drop w) hb2 hsz2, List.take_add]
    | bytesF n k =>
      simp only [FieldSpec.size] at hsz hb2 hsz2 hszle htk
      show encodeVal (.bytesF n k)
          (packCell ⟨.bytesF n k, .raw (d.take n),
            List.replicate k (.raw (d.take n))⟩)
          ++ ((unpackCells rest (d.drop n)).map
            (fun c => encodeVal c.spec (packCell c))).flatten
        = d.take (n + specsSize rest)
      rw [packCell_replicate]
      show ((d.take n).take n ++ List.replicate (n - (d.take n).length) 0)
          ++ ((unpackCells rest (d.drop n)).map
            (fun c => encodeVal c.spec (packCell c))).flatten
        = d.take (n + specsSize rest)
      rw [htk, Nat.sub_self, List.take_take, Nat.min_self]
      show (d.take n ++ []) ++ _ = _
      rw [List.append_nil, ih (d.drop n) hb2 hsz2, List.take_add]

theorem packRec_of_unpack (specs : List FieldSpec) (off : Nat)
    (chunk : List Nat) (r : PackedRec)
    (hu : unpackRec specs off chunk = some r)
    (hb : ∀ b ∈ chunk, b < 256) :
    packRec r = chunk.take (specsSize specs) := by
  unfold unpackRec at hu
  split at hu
  · cases hu
  · rename_i hlen
    have hr : r = ⟨unpackCells specs (chunk.take (specsSize specs)), off⟩ :=
      (Option.some.inj hu).symm
    subst hr
    show ((unpackCells specs (chunk.take (specsSize specs))).map
      (fun c => encodeVal c.spec (packCell c))).flatten
      = chunk.take (specsSize specs)
    have h1 : specsSize specs ≤ (chunk.take (specsSize specs)).length := by
      rw [List.length_take]
      omega
    rw [packCells_unpack specs (chunk.take (specsSize specs))
      (fun x hx => hb x (List.mem_of_mem_take hx)) h1]
    rw [List.take_take, Nat.min_self]

theorem unpack_len_le (specs : List FieldSpec) (off : Nat)
    (chunk : List Nat) (r : PackedRec)
    (hu : unpackRec specs off chunk = some r) :
    specsSize specs ≤ chunk.length := by
  unfold unpackRec at hu
  split at hu
  · cases hu
  · rename_i hlen
    omega

theorem overlay_agree (data fd sd : List Nat) (off : Nat)
    (hlen : data.length ≤ fd.length)
    (hfd : ∀ j, j < data.length → fd.get? j = data.get? j)
    (hsd : ∀ i, i < sd.length → off + i < data.length →
      sd.get? i = data.get? (off + i)) :
    data.length ≤ (overlay fd off sd).length ∧
    ∀ j, j < data.length → (overlay fd off sd).get? j = data.get? j := by
  constructor
  · unfold overlay
    simp only [List.length_append, List.length_take, List.length_drop]
    omega
  · intro j hj
    unfold overlay
    rw [List.append_assoc]
    by_cases h1 : j < off
    · rw [List.get?_append (by rw [List.length_take]; omega)]
      rw [List.get?_take h1]
      exact hfd j hj
    · push_neg at h1
      have hoff : (fd.take off).length = off := by
        rw [List.length_take]
        omega
      rw [List.get?_append_right (by rw [List.length_take]; omega), hoff]
      by_cases h2 : j < off + sd.length
      · rw [List.get?_append (by omega)]
        have hmid := hsd (j - off) (by omega) (by omega)
        rw [hmid]
        congr 1
        omega
      · push_neg at h2
        rw [List.get?_append_right (by omega), List.get?_drop]
        have he : off + sd.length + (j - off - sd.length) = j := by omega
        rw [he]
        exact hfd j hj

theorem write_aux (data : List Nat) :
    ∀ (recs : List PackedRec), (∀ r ∈ recs, DecodedFrom data r) →
    ∀ fd, data.length ≤ fd.length →
      (∀ j, j < data.length → fd.get? j = data.get? j) →
      data.length ≤
        (recs.foldl (fun acc r => overlay acc r.fileOffset (packRec r)) fd).length ∧
      ∀ j, j < data.length →
        (recs.foldl (fun acc r => overlay acc r.fileOffset (packRec r)) fd).get? j
          = data.get? j := by
  intro recs
  induction recs with
  | nil =>
    intro _ fd h1 h2
    exact ⟨h1, h2⟩
  | cons r rest ih =>
    intro hdec fd h1 h2
    obtain ⟨specs, chunk, hu, hby, hag⟩ := hdec r (List.mem_cons_self r rest)
    have hpk : packRec r = chunk.take (specsSize specs) :=
      packRec_of_unpack specs r.fileOffset chunk r hu hby
    have hS : specsSize specs ≤ chunk.length :=
      unpack_len_le specs r.fileOffset chunk r hu
    have hlenpk : (packRec r).length = specsSize specs := by
      rw [hpk, List.length_take]
      omega
    have hsd : ∀ i, i < (packRec r).length → r.fileOffset + i < data.length →
        (packRec r).get? i = data.get? (r.fileOffset + i) := by
      intro i hi hin
      rw [hlenpk] at hi
      rw [hpk, List.get?_take hi]
      exact hag i hi hin
    obtain ⟨h1n, h2n⟩ := overlay_agree data fd (packRec r) r.fileOffset h1 h2 hsd
    have hres := ih (fun x hx => hdec x (List.mem_cons_of_mem r hx))
      (overlay fd r.fileOffset (packRec r)) h1n h2n
    rw [List.foldl_cons]
    exact hres

/-- C7: the write round trip holds: for every image and every collection of
records each decoded, unmutated, from bytes agreeing with the image at its
recorded file offset, `write()` (re-encode every record and overlay it at
its offset over the original bytes) returns an image identical to the input
at every in-bounds offset — in particular at every offset covered by at
least one decoded record. -/
theorem write_roundtrip (data : List Nat) (recs : List PackedRec)
    (h : ∀ r ∈ recs, Unmutated r ∧ DecodedFrom data r) :
    ∀ j, j < data.length → CoveredBy recs j →
      (write_image data recs).get? j = data.get? j := by
  intro j hj _
  exact (write_aux data recs (fun r hr => (h r hr).2) data le_rfl
    (fun _ _ => rfl)).2 j hj

theorem write_roundtrip_witness :
    (∀ r ∈ [wRec7], Unmutated r ∧ DecodedFrom [1, 2, 3, 4] r) ∧
    (write_image [1, 2, 3, 4] [wRec7]).get? 2 = [1, 2, 3, 4].get? 2 := by
  have hyp : ∀ r ∈ [wRec7], Unmutated r ∧ DecodedFrom [1, 2, 3, 4] r := by
    intro r hr
    rw [List.mem_singleton] at hr
    subst hr
    constructor
    · intro c hc v hv
      rw [show wRec7.cells = [⟨.word 4 1, .num 67305985, [.num 67305985]⟩]
        from rfl, List.mem_singleton] at hc
      subst hc
      rw [List.mem_singleton] at hv
      exact hv
    · refine ⟨[.word 4 1], [1, 2, 3, 4], rfl, by decide, ?_⟩
      intro i h1 h2
      show ([1, 2, 3, 4] : List Nat).get? i = [1, 2, 3, 4].get? (0 + i)
      rw [Nat.zero_add]
  have hcov : CoveredBy [wRec7] 2 :=
    ⟨wRec7, List.mem_singleton.mpr rfl, by decide, by decide⟩
  exact ⟨hyp, write_roundtrip [1, 2, 3, 4] [wRec7] hyp 2 (by decide) hcov⟩
